import Mathlib

/-!
# BioTrial Analytics — verification of the statistical engine

Shallow embedding of the statistical core of the BioTrial Analytics
dashboard: the normal-distribution approximations (probit and CDF), the
proteomic sample-size calculator, the single-cell pseudobulk power model,
the spatial hierarchical power model, the cohort simulator and the
derived-metric enrichment of uploaded data.  JavaScript numbers are
idealised as real numbers; the unseeded random draws of the simulator are
passed in explicitly as draw streams.
-/

set_option maxHeartbeats 1000000

open scoped Classical

noncomputable section

/-! ## Shared Abramowitz–Stegun probit core

All three power components implement the same rational-polynomial probit
approximation; `zCore` is that common core as a function of
`t = sqrt (-2 * log (1 - p))`. -/

def zCore (t : ℝ) : ℝ :=
  t - ((0.010328 * t + 0.802853) * t + 2.515517) /
      (((0.001308 * t + 0.189269) * t + 1.432788) * t + 1)

/-! ## Normal CDF series (shared by SpatialPower.tsx and SingleCellPower.tsx)

The source loop
`while (|term| > Math.exp(-23)) { term = 0.3989422804 * (-1)^k * z^(2k+1)/(2k+1)/2^k/k!; sum += term; k++ }`
sums `seriesTerm z 0, …, seriesTerm z K` where `K` is the first index whose
term has magnitude `≤ exp (-23)`. -/

def seriesTerm (z : ℝ) (k : ℕ) : ℝ :=
  0.3989422804 * (-1) ^ k * z ^ (2 * k + 1) / (2 * (k : ℝ) + 1) / 2 ^ k /
    (Nat.factorial k : ℝ)

/-- Index at which the source's CDF series loop stops: the least `k` with
`|seriesTerm z k| ≤ exp (-23)`.  Such a `k` exists for every `z` because the
factorial eventually dominates the powers of `z`. -/
def stopIndex (z : ℝ) : ℕ :=
  Nat.find (p := fun k => |seriesTerm z k| ≤ Real.exp (-23))
    (by
      have hc : (0 : ℝ) < 0.3989422804 * (|z| + 1) := by positivity
      have hδ : (0 : ℝ) < Real.exp (-23) / (0.3989422804 * (|z| + 1)) :=
        div_pos (Real.exp_pos _) hc
      obtain ⟨N, hN⟩ := Metric.tendsto_atTop.mp
        (FloorSemiring.tendsto_pow_div_factorial_atTop (K := ℝ) (z ^ 2 / 2)) _ hδ
      refine ⟨N, ?_⟩
      have hfact : (0 : ℝ) < (Nat.factorial N : ℝ) := by
        exact_mod_cast Nat.factorial_pos N
      have hq : (z ^ 2 / 2) ^ N / (Nat.factorial N : ℝ) <
          Real.exp (-23) / (0.3989422804 * (|z| + 1)) := by
        have := hN N le_rfl
        rw [Real.dist_eq, sub_zero] at this
        calc (z ^ 2 / 2) ^ N / (Nat.factorial N : ℝ)
            ≤ |(z ^ 2 / 2) ^ N / (Nat.factorial N : ℝ)| := le_abs_self _
          _ < _ := this
      -- rewrite |seriesTerm z N| as a single quotient
      have hrepr : |seriesTerm z N| =
          0.3989422804 * ((z ^ 2) ^ N * |z|) /
            ((2 * (N : ℝ) + 1) * 2 ^ N * (Nat.factorial N : ℝ)) := by
        have h1 : seriesTerm z N =
            0.3989422804 * (-1) ^ N * z ^ (2 * N + 1) /
              ((2 * (N : ℝ) + 1) * 2 ^ N * (Nat.factorial N : ℝ)) := by
          rw [seriesTerm, div_div, div_div, ← mul_assoc]
        rw [h1, abs_div, abs_mul, abs_mul]
        have h2 : |((-1 : ℝ)) ^ N| = 1 := by rw [abs_pow]; norm_num
        have h3 : |z ^ (2 * N + 1)| = (z ^ 2) ^ N * |z| := by
          rw [pow_succ, abs_mul, abs_pow, pow_mul, sq_abs]
        have h4 : |(2 * (N : ℝ) + 1) * 2 ^ N * (Nat.factorial N : ℝ)| =
            (2 * (N : ℝ) + 1) * 2 ^ N * (Nat.factorial N : ℝ) := by
          rw [abs_of_pos]; positivity
        have h5 : |(0.3989422804 : ℝ)| = 0.3989422804 := by
          rw [abs_of_pos]; norm_num
        rw [h2, h3, h4, h5, mul_one]
      have hle : |seriesTerm z N| ≤
          0.3989422804 * (|z| + 1) * ((z ^ 2 / 2) ^ N / (Nat.factorial N : ℝ)) := by
        rw [hrepr]
        have hY : 0.3989422804 * (|z| + 1) * ((z ^ 2 / 2) ^ N / (Nat.factorial N : ℝ)) =
            0.3989422804 * ((z ^ 2) ^ N * (|z| + 1)) /
              (1 * 2 ^ N * (Nat.factorial N : ℝ)) := by
          rw [div_pow]
          field_simp
          ring
        rw [hY]
        have h2 : (0 : ℝ) < (2 : ℝ) ^ N := by positivity
        have hac : 0.3989422804 * ((z ^ 2) ^ N * |z|) ≤
            0.3989422804 * ((z ^ 2) ^ N * (|z| + 1)) := by
          have h0 : (0 : ℝ) ≤ (z ^ 2) ^ N := by positivity
          nlinarith [abs_nonneg z]
        have hd : (0 : ℝ) < 1 * 2 ^ N * (Nat.factorial N : ℝ) := by
          rw [one_mul]; exact mul_pos h2 hfact
        have hdb : (1 : ℝ) * 2 ^ N * (Nat.factorial N : ℝ) ≤
            (2 * (N : ℝ) + 1) * 2 ^ N * (Nat.factorial N : ℝ) := by
          have h1 : (1 : ℝ) ≤ 2 * (N : ℝ) + 1 := by
            have : (0 : ℝ) ≤ (N : ℝ) := Nat.cast_nonneg N
            linarith
          nlinarith [mul_le_mul_of_nonneg_right h1 (mul_pos h2 hfact).le]
        have hcnn : (0 : ℝ) ≤ 0.3989422804 * ((z ^ 2) ^ N * (|z| + 1)) := by positivity
        exact div_le_div₀ hcnn hac hd hdb
      calc |seriesTerm z N|
          ≤ 0.3989422804 * (|z| + 1) * ((z ^ 2 / 2) ^ N / (Nat.factorial N : ℝ)) := hle
        _ ≤ 0.3989422804 * (|z| + 1) *
              (Real.exp (-23) / (0.3989422804 * (|z| + 1))) := by
            exact mul_le_mul_of_nonneg_left hq.le (by positivity)
        _ = Real.exp (-23) := mul_div_cancel₀ _ (ne_of_gt hc))

/-! ## src/components/SpatialPower.tsx -/

namespace SpatialPower

/-- `getZScore` from SpatialPower.tsx: clamps inputs at or beyond `{0, 1}`
to `±6.5`, otherwise evaluates the Abramowitz–Stegun core `zCore` at
`t = sqrt (-2 * log (1 - p))`. -/
def getZScore (p : ℝ) : ℝ :=
  if 1 ≤ p then 6.5
  else if p ≤ 0 then -6.5
  else zCore (Real.sqrt (-2 * Real.log (1 - p)))

/-- `getNormalProbability` from SpatialPower.tsx: returns `0` (resp. `1`)
directly for `z < -6.5` (resp. `z > 6.5`); otherwise sums the series terms
until the first index whose magnitude is `≤ exp (-23)` and adds `0.5`. -/
def getNormalProbability (z : ℝ) : ℝ :=
  if z < -6.5 then 0
  else if 6.5 < z then 1
  else (∑ k in Finset.range (stopIndex z + 1), seriesTerm z k) + 0.5

/-- The nested-variance group standard error computed inside
`calculateForN` (SpatialPower.tsx, `useMemo` body): `longitudinalGain`
is `1 + (T - 1) * 0.45`. -/
def spatialGroupSE (sigmaP2 sigmaS2 sigmaT2 effectiveObservations N S T : ℝ) : ℝ :=
  Real.sqrt (sigmaP2 / (N * (1 + (T - 1) * 0.45)) +
    sigmaS2 / (N * S * T) +
    sigmaT2 / (N * S * T * effectiveObservations))

/-- `calculateForN` from SpatialPower.tsx (with `alpha = 0.05` as in the
source): the achieved power for `N` patients, `S` slices, `T` timepoints. -/
def calculateForN (sigmaP2 sigmaS2 sigmaT2 effectiveObservations treatmentEffect : ℝ)
    (N S T : ℝ) : ℝ :=
  let alpha : ℝ := 0.05
  let se := spatialGroupSE sigmaP2 sigmaS2 sigmaT2 effectiveObservations N S T
  let z := treatmentEffect / se - getZScore (1 - alpha / 2)
  max 0 (min 1 (getNormalProbability z))

end SpatialPower

/-- Modelled from the spec: the single-arm vs two-arm design of
`PowerModel::SpatialHierarchical` (spec §4.6) is not present in `src/`
(the shipped `calculateForN` computes one undifferentiated power), so the
power of a design is modelled from the spec's words
`power = cdf(treatmentEffect/finalSE − probit(1−alpha/2)), clamped to [0,1]`
with `cdf` the "standard normal CDF via a convergent series" of §4.1 —
taken here at its value, `0.5 + 0.3989422804·∫₀^z exp(−t²/2) dt`, the sum
of that convergent series. -/
def specNormalCdf (z : ℝ) : ℝ :=
  0.5 + 0.3989422804 * ∫ t in (0 : ℝ)..z, Real.exp (-(t ^ 2) / 2)

/-- Modelled from the spec: `finalSE = groupSE·sqrt(2·(1−ρ))` for
single-arm; `groupSE·sqrt(2)` for two-arm (spec §4.6); absent from `src/`. -/
def spatialFinalSE (twoArm : Bool) (groupSE rho : ℝ) : ℝ :=
  if twoArm then groupSE * Real.sqrt 2 else groupSE * Real.sqrt (2 * (1 - rho))

/-- Modelled from the spec: achieved power of a spatial design (spec §4.6),
`cdf(treatmentEffect/finalSE − probit(1−alpha/2))` clamped to `[0,1]`;
absent from `src/`. -/
def spatialDesignPower (twoArm : Bool) (groupSE rho treatmentEffect alpha : ℝ) : ℝ :=
  max 0 (min 1 (specNormalCdf
    (treatmentEffect / spatialFinalSE twoArm groupSE rho -
      SpatialPower.getZScore (1 - alpha / 2))))

/-! ## src/components/PowerCalculator.tsx (proteomic model, README source) -/

namespace PowerCalculator

/-- `getZScore` from PowerCalculator.tsx: the Abramowitz–Stegun probit
approximation, with no clamping of the input. -/
def getZScore (p : ℝ) : ℝ :=
  zCore (Real.sqrt (-2 * Real.log (1 - p)))

/-- `totalCv` (root sum of squares) from `calculationResults`. -/
def totalCv (techCv bioCv : ℝ) : ℝ :=
  Real.sqrt (techCv ^ 2 + bioCv ^ 2)

/-- `sd = controlMean * (totalCv / 100)` from `calculationResults`. -/
def sd (controlMean techCv bioCv : ℝ) : ℝ :=
  controlMean * (totalCv techCv bioCv / 100)

/-- `diff = |controlMean * (percentChange / 100)|` from `calculationResults`. -/
def diff (controlMean percentChange : ℝ) : ℝ :=
  |controlMean * (percentChange / 100)|

/-- `cohensD = diff / sd` from `calculationResults`. -/
def cohensD (controlMean percentChange techCv bioCv : ℝ) : ℝ :=
  diff controlMean percentChange / sd controlMean techCv bioCv

/-- `effectiveAlpha = (applyCorrection && numAnalytes > 1) ? alpha / numAnalytes : alpha`. -/
def effectiveAlpha (alpha : ℝ) (applyCorrection : Bool) (numAnalytes : ℝ) : ℝ :=
  if applyCorrection = true ∧ 1 < numAnalytes then alpha / numAnalytes else alpha

/-- `requiredN` from `calculationResults`: `0` when `cohensD ≤ 0`, otherwise
`ceil (2 * ((zAlpha + zBeta) / cohensD)^2)`. -/
def requiredN (controlMean percentChange techCv bioCv alpha targetPower : ℝ)
    (applyCorrection : Bool) (numAnalytes : ℝ) : ℤ :=
  let zAlpha := getZScore (1 - effectiveAlpha alpha applyCorrection numAnalytes / 2)
  let zBeta := getZScore targetPower
  if 0 < cohensD controlMean percentChange techCv bioCv then
    ⌈2 * ((zAlpha + zBeta) / cohensD controlMean percentChange techCv bioCv) ^ 2⌉
  else 0

end PowerCalculator

/-! ## src/components/SingleCellPower.tsx -/

namespace SingleCellPower

/-- `getZScore` from SingleCellPower.tsx (clamped, identical to the
SpatialPower version). -/
def getZScore (p : ℝ) : ℝ :=
  if 1 ≤ p then 6.5
  else if p ≤ 0 then -6.5
  else zCore (Real.sqrt (-2 * Real.log (1 - p)))

/-- `getNormalProbability` from SingleCellPower.tsx (identical to the
SpatialPower version). -/
def getNormalProbability (z : ℝ) : ℝ :=
  if z < -6.5 then 0
  else if 6.5 < z then 1
  else (∑ k in Finset.range (stopIndex z + 1), seriesTerm z k) + 0.5

/-- `PowerResult` interface from SingleCellPower.tsx. -/
structure PowerResult where
  power : ℝ
  effectiveN : ℝ
  isQCFail : Bool
  failReason : Option String
  expectedCells : ℝ
  dropoutFactor : ℝ

/-- `calculatePower` from SingleCellPower.tsx, over the component state
(`meanGenesPerCell`, `minGenesPerCell`, `targetCellsPerPerson`,
`minTotalCells`, `minClusterSize`, `timepoints`, `minGenesImpacted`,
`effectSizeLog2`, `bioCV`; constants `alpha = 0.05`,
`intraSubjectCorr = 0.5`) and the call arguments `nPerArm`, `abundance`. -/
def calculatePower (meanGenesPerCell minGenesPerCell targetCellsPerPerson minTotalCells
    minClusterSize timepoints minGenesImpacted effectSizeLog2 bioCV
    nPerArm abundance : ℝ) : PowerResult :=
  if meanGenesPerCell < minGenesPerCell then
    ⟨0, 0, true, some "Low Resolution (< QC)", 0, 0⟩
  else if targetCellsPerPerson < minTotalCells then
    ⟨0, 0, true, some "Low Yield", 0, 0⟩
  else
    let expectedCellsPerPatient := targetCellsPerPerson * abundance
    let dropoutFactor :=
      if expectedCellsPerPatient < minClusterSize then
        max 0 (expectedCellsPerPatient / minClusterSize)
      else 1
    let effectiveN := nPerArm * dropoutFactor
    if effectiveN < 3 then
      ⟨0, effectiveN, true, some "High Dropout", expectedCellsPerPatient, dropoutFactor⟩
    else
      let intraSubjectCorr : ℝ := 0.5
      let alpha : ℝ := 0.05
      let longitudinalFactor := 1 / (1 + (timepoints - 2) * 0.5)
      let bioVarPart := (2 * bioCV ^ 2) / effectiveN * (1 - intraSubjectCorr) * longitudinalFactor
      let resolutionFactor := 500 / meanGenesPerCell
      let pseudobulkCounts := expectedCellsPerPatient * (2.0 / resolutionFactor)
      let moduleSize := max 1 minGenesImpacted
      let techVarPart := 2 / (effectiveN * timepoints * pseudobulkCounts * moduleSize)
      let totalSE := Real.sqrt (bioVarPart + techVarPart)
      let z := |effectSizeLog2| / totalSE - getZScore (1 - alpha / 2)
      let power := getNormalProbability z
      ⟨max 0 (min 1 power), effectiveN, false, none, expectedCellsPerPatient, dropoutFactor⟩

end SingleCellPower

/-! ## src/types.ts, src/constants.ts and src/services/simulation.ts -/

namespace Simulation

/-- `Arm` enum from types.ts. -/
inductive Arm where
  | PLACEBO
  | DRUG_1MG
  | DRUG_2MG
deriving DecidableEq, Repr

/-- `Timepoint` enum from types.ts. -/
inductive Timepoint where
  | BASELINE
  | WEEK_4
  | WEEK_12
  | WEEK_24
deriving DecidableEq, Repr

/-- `BiomarkerCategory` enum from types.ts. -/
inductive BiomarkerCategory where
  | INFLAMMATION
  | FIBROSIS
  | OXIDATIVE_STRESS
  | METABOLIC_HEALTH
  | CUSTOM
deriving DecidableEq, Repr

/-- The `direction` union type of `BiomarkerDef` from types.ts. -/
inductive Direction where
  | lower_is_better
  | higher_is_better
deriving DecidableEq, Repr

/-- `BiomarkerDef` interface from types.ts (`baselineMean` is optional). -/
structure BiomarkerDef where
  id : String
  name : String
  category : BiomarkerCategory
  unit : String
  direction : Direction
  baselineMean : Option ℝ

/-- `Measurement` interface from types.ts (`changeFromBaseline` and
`percentChange` are optional fields). -/
structure Measurement where
  biomarkerId : String
  timepoint : Timepoint
  value : ℝ
  changeFromBaseline : Option ℝ
  percentChange : Option ℝ

/-- `PatientData` interface from types.ts. -/
structure PatientData where
  patientId : String
  arm : Arm
  measurements : List Measurement

/-- `TimeProfileType` from simulation.ts. -/
inductive TimeProfileType where
  | linear
  | immediate
  | delayed
  | biphasic
  | peak_drop
deriving DecidableEq, Repr

/-- `SimulationConfig` interface from simulation.ts. -/
structure SimulationConfig where
  scenarioName : String
  drugEffectSize : ℝ
  placeboEffectSize : ℝ
  variability : ℝ
  responderRate : ℝ
  timeProfile : TimeProfileType
  drift : ℝ

/-- `getTimeProfileMultipliers` from simulation.ts (the source returns a
three-element array). -/
def getTimeProfileMultipliers : TimeProfileType → List ℝ
  | .immediate => [0.8, 0.9, 1.0]
  | .delayed => [0.05, 0.4, 1.0]
  | .biphasic => [0.7, 1.0, 0.2]
  | .peak_drop => [1.0, 0.5, 0.1]
  | .linear => [0.33, 0.66, 1.0]

/-- `generateMeasurementsForBiomarker` from simulation.ts.  The source's
unseeded `randn_bm()` draws are supplied by the stream `draws`: index `0`
is the baseline draw; the follow-up at index `idx` consumes draws
`2*idx+1` (measurement noise) and `2*idx+2` (drift).  JS `baselineMean || 10`
treats a missing or zero `baselineMean` as `10`. -/
def generateMeasurementsForBiomarker (biomarker : BiomarkerDef) (arm : Arm)
    (config : SimulationConfig) (isResponder : Bool) (draws : ℕ → ℝ) :
    List Measurement :=
  let baseMean : ℝ :=
    match biomarker.baselineMean with
    | none => 10
    | some b => if b = 0 then 10 else b
  let patientBase := baseMean + draws 0 * (baseMean * config.variability)
  let baselineMeas : Measurement :=
    ⟨biomarker.id, Timepoint.BASELINE, max 0.01 patientBase, some 0, some 0⟩
  let targetEffect : ℝ :=
    match arm with
    | .PLACEBO =>
        let placeboDir : ℝ := if biomarker.direction = .lower_is_better then -1 else 1
        |config.placeboEffectSize| * placeboDir
    | _ =>
        if isResponder then
          let doseFactor : ℝ := if arm = .DRUG_2MG then 1.0 else 0.7
          let improvementDir : ℝ := if biomarker.direction = .lower_is_better then -1 else 1
          |config.drugEffectSize| * improvementDir * doseFactor
        else
          let placeboDir : ℝ := if biomarker.direction = .lower_is_better then -1 else 1
          |config.placeboEffectSize| * placeboDir
  let profileMultipliers := getTimeProfileMultipliers config.timeProfile
  let followUps :=
    ([Timepoint.WEEK_4, Timepoint.WEEK_12, Timepoint.WEEK_24].enum).map
      (fun p =>
        let idx := p.1
        let tp := p.2
        let timeFactor := profileMultipliers.getD idx 0
        let trendDelta := patientBase * targetEffect * timeFactor
        let noiseSD := patientBase * (config.variability * 0.4)
        let randomNoise := draws (2 * idx + 1) * noiseSD
        let drift := draws (2 * idx + 2) * (patientBase * config.drift * ((idx : ℝ) + 1))
        let val := max 0.01 (patientBase + trendDelta + randomNoise + drift)
        (⟨biomarker.id, tp, val, some (val - patientBase),
          some ((val - patientBase) / patientBase * 100)⟩ : Measurement))
  baselineMeas :: followUps

/-- Patient id `PT-0001`-style formatting (`(i+1).toString().padStart(4, '0')`). -/
def patientIdOf (i : ℕ) : String :=
  let s := toString (i + 1)
  String.mk (List.replicate (4 - s.length) '0') ++ s

/-- The arm array `[Arm.PLACEBO, Arm.DRUG_1MG, Arm.DRUG_2MG]` from
`generateSimulatedData`. -/
def armsList : List Arm := [Arm.PLACEBO, Arm.DRUG_1MG, Arm.DRUG_2MG]

/-- `generateSimulatedData` from simulation.ts.  The per-patient responder
roll `Math.random() < config.responderRate` is supplied by `respond`, and
the per-(patient, biomarker) draw streams by `draws`. -/
def generateSimulatedData (patientCount : ℕ) (biomarkers : List BiomarkerDef)
    (config : SimulationConfig) (respond : ℕ → Bool)
    (draws : ℕ → BiomarkerDef → ℕ → ℝ) : List PatientData :=
  (List.range patientCount).map fun i =>
    let arm := armsList.getD (i % 3) Arm.PLACEBO
    let patientId := "PT-" ++ patientIdOf i
    let isResponder := respond i
    let measurements := biomarkers.flatMap fun bio =>
      generateMeasurementsForBiomarker bio arm config isResponder (draws i bio)
    ⟨patientId, arm, measurements⟩

/-- `augmentDataWithBiomarker` from simulation.ts: re-rolls responder
status per patient and appends the new biomarker's four measurements to
each patient's existing list. -/
def augmentDataWithBiomarker (currentData : List PatientData)
    (newBiomarker : BiomarkerDef) (config : SimulationConfig)
    (respond : ℕ → Bool) (draws : ℕ → ℕ → ℝ) : List PatientData :=
  currentData.mapIdx fun i patient =>
    let isResponder := respond i
    let newMeasurements :=
      generateMeasurementsForBiomarker newBiomarker patient.arm config isResponder (draws i)
    { patient with measurements := patient.measurements ++ newMeasurements }

/-- Number of measurements of patient `p` for biomarker id `b` at
timepoint `t` (the data-model invariant counts these). -/
def measCount (p : PatientData) (b : String) (t : Timepoint) : ℕ :=
  p.measurements.countP fun m => decide (m.biomarkerId = b) && decide (m.timepoint = t)

/-- A concrete biomarker definition (CRP from the default panel), used as a
sample input. -/
def sampleBiomarker : BiomarkerDef :=
  ⟨"crp", "CRP", BiomarkerCategory.INFLAMMATION, "mg/L", Direction.lower_is_better, some 3⟩

/-- A second concrete biomarker definition (IL-6 from the default panel),
used as a sample added biomarker. -/
def sampleBiomarker2 : BiomarkerDef :=
  ⟨"il6", "IL-6", BiomarkerCategory.INFLAMMATION, "pg/mL", Direction.lower_is_better, some 2⟩

/-- A concrete simulation configuration, used as a sample input. -/
def sampleConfig : SimulationConfig :=
  ⟨"base", 0.3, 0.05, 0.15, 0.6, TimeProfileType.linear, 0.01⟩

end Simulation

/-! ## src/App.tsx — `calculateDerivedMetrics` -/

namespace App

open Simulation

/-- First-occurrence key order of `Object.keys(measurementsByBio)`:
JavaScript string-keyed records iterate keys in insertion order. -/
def keyOrder : List String → List String
  | [] => []
  | x :: xs => x :: keyOrder (xs.filter fun y => y ≠ x)
termination_by l => l.length
decreasing_by
  have := List.length_filter_le (fun y => decide (y ≠ x)) xs
  simp only [List.length_cons]
  omega

/-- Enrichment of one measurement given the group's baseline value
(`undefined` when the group has no Baseline measurement): the derived
`change`/`pct` default to `0` unless a baseline exists and is nonzero, and
`?? ` keeps an already-present field. -/
def enrichMeasurement (baselineVal : Option ℝ) (m : Measurement) : Measurement :=
  let change : ℝ :=
    match baselineVal with
    | some b => if b ≠ 0 then m.value - b else 0
    | none => 0
  let pct : ℝ :=
    match baselineVal with
    | some b => if b ≠ 0 then (m.value - b) / b * 100 else 0
    | none => 0
  { m with
    changeFromBaseline := some (m.changeFromBaseline.getD change)
    percentChange := some (m.percentChange.getD pct) }

/-- `calculateDerivedMetrics` from App.tsx: groups a patient's measurements
by biomarker id (insertion order), finds each group's Baseline value, and
enriches every measurement of the group. -/
def calculateDerivedMetrics (patients : List PatientData) : List PatientData :=
  patients.map fun patient =>
    let keys := keyOrder (patient.measurements.map (·.biomarkerId))
    let enriched := keys.flatMap fun bioId =>
      let bioMeasurements := patient.measurements.filter fun m =>
        decide (m.biomarkerId = bioId)
      let baseline := bioMeasurements.find? fun m =>
        decide (m.timepoint = Timepoint.BASELINE)
      let baselineVal := baseline.map (·.value)
      bioMeasurements.map (enrichMeasurement baselineVal)
    { patient with measurements := enriched }

end App

/-! ## Monotonicity of the Abramowitz–Stegun core -/

theorem zCore_lt_zCore {a b : ℝ} (ha : 0 ≤ a) (hab : a < b) : zCore a < zCore b := by
  have hb : 0 ≤ b := le_trans ha hab.le
  have ha2 : (0 : ℝ) ≤ a ^ 2 := sq_nonneg a
  have ha3 : (0 : ℝ) ≤ a ^ 3 := pow_nonneg ha 3
  have hb2 : (0 : ℝ) ≤ b ^ 2 := sq_nonneg b
  have hb3 : (0 : ℝ) ≤ b ^ 3 := pow_nonneg hb 3
  have hQa : (0 : ℝ) < ((0.001308 * a + 0.189269) * a + 1.432788) * a + 1 := by nlinarith
  have hQb : (0 : ℝ) < ((0.001308 * b + 0.189269) * b + 1.432788) * b + 1 := by nlinarith
  -- the divided-difference certificate: all coefficients nonnegative
  have hG : (0 : ℝ) < 3.801349571396 + 1.898569387073 * a + 0.192559296236 * a ^ 2 +
      0.001308 * a ^ 3 + 1.898569387073 * b + 2.193329099173 * (a * b) +
      0.272232483696 * (a ^ 2 * b) + 0.001874086704 * (a ^ 3 * b) +
      0.192559296236 * b ^ 2 + 0.272232483696 * (a * b ^ 2) +
      0.035836263385 * (a ^ 2 * b ^ 2) + 0.000247563852 * (a ^ 3 * b ^ 2) +
      0.001308 * b ^ 3 + 0.001874086704 * (a * b ^ 3) +
      0.000247563852 * (a ^ 2 * b ^ 3) + 0.000001710864 * (a ^ 3 * b ^ 3) := by
    nlinarith [mul_nonneg ha hb, mul_nonneg ha2 hb, mul_nonneg ha3 hb,
      mul_nonneg ha hb2, mul_nonneg ha2 hb2, mul_nonneg ha3 hb2,
      mul_nonneg ha hb3, mul_nonneg ha2 hb3, mul_nonneg ha3 hb3]
  have hfrac : ((0.010328 * b + 0.802853) * b + 2.515517) /
        (((0.001308 * b + 0.189269) * b + 1.432788) * b + 1) -
      ((0.010328 * a + 0.802853) * a + 2.515517) /
        (((0.001308 * a + 0.189269) * a + 1.432788) * a + 1) < b - a := by
    rw [div_sub_div _ _ (ne_of_gt hQb) (ne_of_gt hQa), div_lt_iff (mul_pos hQb hQa)]
    nlinarith [mul_pos (sub_pos.2 hab) hG]
  rw [zCore, zCore]
  linarith

theorem zCore_le_zCore {a b : ℝ} (ha : 0 ≤ a) (hab : a ≤ b) : zCore a ≤ zCore b := by
  rcases eq_or_lt_of_le hab with h | h
  · rw [h]
  · exact (zCore_lt_zCore ha h).le

/-! ## Monotonicity of the spec-modelled normal CDF -/

theorem specNormalCdf_mono {x y : ℝ} (h : x ≤ y) : specNormalCdf x ≤ specNormalCdf y := by
  have hcont : Continuous fun t : ℝ => Real.exp (-(t ^ 2) / 2) := by
    apply Real.continuous_exp.comp
    continuity
  have h1 : IntervalIntegrable (fun t : ℝ => Real.exp (-(t ^ 2) / 2))
      MeasureTheory.volume 0 x := hcont.intervalIntegrable 0 x
  have h2 : IntervalIntegrable (fun t : ℝ => Real.exp (-(t ^ 2) / 2))
      MeasureTheory.volume x y := hcont.intervalIntegrable x y
  have hadd := intervalIntegral.integral_add_adjacent_intervals h1 h2
  have hnn : 0 ≤ ∫ t in x..y, Real.exp (-(t ^ 2) / 2) :=
    intervalIntegral.integral_nonneg h fun u _ => (Real.exp_pos _).le
  rw [specNormalCdf, specNormalCdf]
  have hle : (∫ t in (0 : ℝ)..x, Real.exp (-(t ^ 2) / 2)) ≤
      ∫ t in (0 : ℝ)..y, Real.exp (-(t ^ 2) / 2) := by
    rw [← hadd]; linarith
  nlinarith

/-- Claim C1 helper: the two final standard errors compare as the spec says. -/
theorem spatialFinalSE_le {groupSE rho : ℝ} (hg : 0 ≤ groupSE) (hrho0 : 0 < rho)
    (hrho1 : rho < 1) :
    spatialFinalSE false groupSE rho ≤ spatialFinalSE true groupSE rho := by
  rw [spatialFinalSE, spatialFinalSE]
  simp only [if_true, if_false, Bool.false_eq_true, ite_false, ite_true]
  have hs : Real.sqrt (2 * (1 - rho)) ≤ Real.sqrt 2 := Real.sqrt_le_sqrt (by nlinarith)
  exact mul_le_mul_of_nonneg_left hs hg

/-- C1: for the spatial power model with identical `N`, `S`, `T` (and any
common variance parameters), the achieved power of the two-arm design is at
most the achieved power of the single-arm design, because
`finalSE = groupSE·sqrt(2·(1−ρ))` single-arm versus `groupSE·sqrt(2)`
two-arm with `0 < ρ < 1`. -/
theorem c1_spatial_two_arm_power_le_single_arm
    (sigmaP2 sigmaS2 sigmaT2 effectiveObservations N S T treatmentEffect rho alpha : ℝ)
    (heff : 0 ≤ treatmentEffect) (hrho0 : 0 < rho) (hrho1 : rho < 1) :
    spatialDesignPower true
        (SpatialPower.spatialGroupSE sigmaP2 sigmaS2 sigmaT2 effectiveObservations N S T)
        rho treatmentEffect alpha ≤
      spatialDesignPower false
        (SpatialPower.spatialGroupSE sigmaP2 sigmaS2 sigmaT2 effectiveObservations N S T)
        rho treatmentEffect alpha := by
  set g := SpatialPower.spatialGroupSE sigmaP2 sigmaS2 sigmaT2 effectiveObservations N S T
    with hgdef
  have hg : 0 ≤ g := Real.sqrt_nonneg _
  have hkey : treatmentEffect / spatialFinalSE true g rho ≤
      treatmentEffect / spatialFinalSE false g rho := by
    rcases eq_or_lt_of_le hg with h0 | h0
    · rw [spatialFinalSE, spatialFinalSE, ← h0]
      norm_num
    · have h1mr : (0 : ℝ) < 2 * (1 - rho) := by nlinarith
      have hs1 : 0 < Real.sqrt (2 * (1 - rho)) := Real.sqrt_pos.2 h1mr
      have hd1 : 0 < spatialFinalSE false g rho := by
        rw [spatialFinalSE]; simpa using mul_pos h0 hs1
      have hd2 : spatialFinalSE false g rho ≤ spatialFinalSE true g rho :=
        spatialFinalSE_le hg hrho0 hrho1
      exact div_le_div_of_nonneg_left heff hd1 hd2
  have hcdf := specNormalCdf_mono
    (sub_le_sub_right hkey (SpatialPower.getZScore (1 - alpha / 2)))
  rw [spatialDesignPower, spatialDesignPower]
  exact max_le_max le_rfl (min_le_min le_rfl hcdf)

/-- Witness for C1 at the component's default parameters
(Xenium preset, `N = 24`, `S = 2`, `T = 3`, effect `0.4`, `ρ = 0.45`). -/
theorem c1_spatial_two_arm_power_le_single_arm_witness :
    spatialDesignPower true
        (SpatialPower.spatialGroupSE 0.36 0.04 (0.08 / 0.85) 5000 24 2 3)
        0.45 0.4 0.05 ≤
      spatialDesignPower false
        (SpatialPower.spatialGroupSE 0.36 0.04 (0.08 / 0.85) 5000 24 2 3)
        0.45 0.4 0.05 :=
  c1_spatial_two_arm_power_le_single_arm 0.36 0.04 (0.08 / 0.85) 5000 24 2 3 0.4 0.45 0.05
    (by norm_num) (by norm_num) (by norm_num)

/-- C2: the single-cell power calculation gates sequentially, short-circuiting
at the first failure in the order (1) resolution, (2) yield, (3) dropout;
every failure has `power = 0`, `isQCFail = true`, and a reason drawn exactly
from the three enumerated codes; in particular
`meanGenesPerCell < minGenesPerCell` forces the Low-Resolution result for
every combination of the other inputs. -/
theorem c2_single_cell_qc_gating
    (meanGenesPerCell minGenesPerCell targetCellsPerPerson minTotalCells minClusterSize
      timepoints minGenesImpacted effectSizeLog2 bioCV nPerArm abundance : ℝ) :
    (meanGenesPerCell < minGenesPerCell →
      SingleCellPower.calculatePower meanGenesPerCell minGenesPerCell targetCellsPerPerson
          minTotalCells minClusterSize timepoints minGenesImpacted effectSizeLog2 bioCV
          nPerArm abundance =
        ⟨0, 0, true, some "Low Resolution (< QC)", 0, 0⟩) ∧
    (¬ meanGenesPerCell < minGenesPerCell → targetCellsPerPerson < minTotalCells →
      SingleCellPower.calculatePower meanGenesPerCell minGenesPerCell targetCellsPerPerson
          minTotalCells minClusterSize timepoints minGenesImpacted effectSizeLog2 bioCV
          nPerArm abundance =
        ⟨0, 0, true, some "Low Yield", 0, 0⟩) ∧
    (¬ meanGenesPerCell < minGenesPerCell → ¬ targetCellsPerPerson < minTotalCells →
      nPerArm * (if targetCellsPerPerson * abundance < minClusterSize then
          max 0 (targetCellsPerPerson * abundance / minClusterSize) else 1) < 3 →
      (SingleCellPower.calculatePower meanGenesPerCell minGenesPerCell targetCellsPerPerson
          minTotalCells minClusterSize timepoints minGenesImpacted effectSizeLog2 bioCV
          nPerArm abundance).power = 0 ∧
      (SingleCellPower.calculatePower meanGenesPerCell minGenesPerCell targetCellsPerPerson
          minTotalCells minClusterSize timepoints minGenesImpacted effectSizeLog2 bioCV
          nPerArm abundance).isQCFail = true ∧
      (SingleCellPower.calculatePower meanGenesPerCell minGenesPerCell targetCellsPerPerson
          minTotalCells minClusterSize timepoints minGenesImpacted effectSizeLog2 bioCV
          nPerArm abundance).failReason = some "High Dropout") ∧
    (¬ meanGenesPerCell < minGenesPerCell → ¬ targetCellsPerPerson < minTotalCells →
      ¬ nPerArm * (if targetCellsPerPerson * abundance < minClusterSize then
          max 0 (targetCellsPerPerson * abundance / minClusterSize) else 1) < 3 →
      (SingleCellPower.calculatePower meanGenesPerCell minGenesPerCell targetCellsPerPerson
          minTotalCells minClusterSize timepoints minGenesImpacted effectSizeLog2 bioCV
          nPerArm abundance).isQCFail = false) ∧
    ((SingleCellPower.calculatePower meanGenesPerCell minGenesPerCell targetCellsPerPerson
          minTotalCells minClusterSize timepoints minGenesImpacted effectSizeLog2 bioCV
          nPerArm abundance).isQCFail = true →
      (SingleCellPower.calculatePower meanGenesPerCell minGenesPerCell targetCellsPerPerson
          minTotalCells minClusterSize timepoints minGenesImpacted effectSizeLog2 bioCV
          nPerArm abundance).power = 0 ∧
      (SingleCellPower.calculatePower meanGenesPerCell minGenesPerCell targetCellsPerPerson
          minTotalCells minClusterSize timepoints minGenesImpacted effectSizeLog2 bioCV
          nPerArm abundance).failReason ∈
        [some "Low Resolution (< QC)", some "Low Yield", some "High Dropout"]) := by
  by_cases h1 : meanGenesPerCell < minGenesPerCell
  · refine ⟨fun _ => ?_, fun h => absurd h1 h, fun h => absurd h1 h, fun h => absurd h1 h, ?_⟩
    · rw [SingleCellPower.calculatePower, if_pos h1]
    · intro _
      rw [SingleCellPower.calculatePower, if_pos h1]
      exact ⟨rfl, by simp⟩
  · by_cases h2 : targetCellsPerPerson < minTotalCells
    · refine ⟨fun h => absurd h h1, fun _ _ => ?_, fun _ h => absurd h2 h, fun _ h => absurd h2 h, ?_⟩
      · rw [SingleCellPower.calculatePower, if_neg h1, if_pos h2]
      · intro _
        rw [SingleCellPower.calculatePower, if_neg h1, if_pos h2]
        exact ⟨rfl, by simp⟩
    · by_cases h3 : nPerArm * (if targetCellsPerPerson * abundance < minClusterSize then
          max 0 (targetCellsPerPerson * abundance / minClusterSize) else 1) < 3
      · have hres : SingleCellPower.calculatePower meanGenesPerCell minGenesPerCell
            targetCellsPerPerson minTotalCells minClusterSize timepoints minGenesImpacted
            effectSizeLog2 bioCV nPerArm abundance =
            ⟨0, nPerArm * (if targetCellsPerPerson * abundance < minClusterSize then
                max 0 (targetCellsPerPerson * abundance / minClusterSize) else 1), true,
              some "High Dropout", targetCellsPerPerson * abundance,
              (if targetCellsPerPerson * abundance < minClusterSize then
                max 0 (targetCellsPerPerson * abundance / minClusterSize) else 1)⟩ := by
          rw [SingleCellPower.calculatePower, if_neg h1, if_neg h2]
          simp only []
          rw [if_pos h3]
        refine ⟨fun h => absurd h h1, fun _ h => absurd h h2, fun _ _ _ => ?_, fun _ _ h => absurd h3 h, ?_⟩
        · rw [hres]
          exact ⟨rfl, rfl, rfl⟩
        · intro _
          rw [hres]
          exact ⟨rfl, by simp⟩
      · have hres : (SingleCellPower.calculatePower meanGenesPerCell minGenesPerCell
            targetCellsPerPerson minTotalCells minClusterSize timepoints minGenesImpacted
            effectSizeLog2 bioCV nPerArm abundance).isQCFail = false := by
          rw [SingleCellPower.calculatePower, if_neg h1, if_neg h2]
          simp only []
          rw [if_neg h3]
        refine ⟨fun h => absurd h h1, fun _ h => absurd h h2, fun _ _ h => absurd h h3,
          fun _ _ _ => hres, fun h => ?_⟩
        rw [hres] at h
        exact absurd h (by simp)

/-- Witness for C2: a concrete low-resolution input short-circuits to the
Low-Resolution QC failure. -/
theorem c2_single_cell_qc_gating_witness :
    SingleCellPower.calculatePower 100 200 5000 500 10 2 250 0.5 0.6 20 0.1 =
      ⟨0, 0, true, some "Low Resolution (< QC)", 0, 0⟩ :=
  (c2_single_cell_qc_gating 100 200 5000 500 10 2 250 0.5 0.6 20 0.1).1 (by norm_num)

/-! ## The probit function: clamping, monotonicity on `(0,1)`, value at `0.5` -/

theorem spatial_getZScore_of_mem {p : ℝ} (h0 : 0 < p) (h1 : p < 1) :
    SpatialPower.getZScore p = zCore (Real.sqrt (-2 * Real.log (1 - p))) := by
  rw [SpatialPower.getZScore, if_neg (by linarith), if_neg (by linarith)]

theorem tArg_lt_tArg {p q : ℝ} (h0 : 0 < p) (hpq : p < q) (h1 : q < 1) :
    Real.sqrt (-2 * Real.log (1 - p)) < Real.sqrt (-2 * Real.log (1 - q)) := by
  have h1p : (0 : ℝ) < 1 - p := by linarith
  have h1q : (0 : ℝ) < 1 - q := by linarith
  have hlt : Real.log (1 - q) < Real.log (1 - p) := Real.log_lt_log h1q (by linarith)
  have hnp : Real.log (1 - p) ≤ 0 := Real.log_nonpos (by linarith) (by linarith)
  exact Real.sqrt_lt_sqrt (by linarith) (by linarith)

/-- The probit approximation at `p = 0.5` is strictly negative (about
`-1.03e-7`), hence not exactly `0`. -/
theorem spatial_getZScore_half_neg : SpatialPower.getZScore 0.5 < 0 := by
  rw [spatial_getZScore_of_mem (by norm_num) (by norm_num)]
  have harg : -2 * Real.log (1 - (0.5 : ℝ)) = 2 * Real.log 2 := by
    have h1 : (1 : ℝ) - 0.5 = (2 : ℝ)⁻¹ := by norm_num
    rw [h1, Real.log_inv]; ring
  rw [harg]
  have hL2 := Real.log_two_lt_d9
  have ht : Real.sqrt (2 * Real.log 2) < 1.177410023 := by
    have h2 : 2 * Real.log 2 < (1.177410023 : ℝ) ^ 2 := by nlinarith
    calc Real.sqrt (2 * Real.log 2) < Real.sqrt ((1.177410023 : ℝ) ^ 2) := by
          apply Real.sqrt_lt_sqrt _ h2
          have := Real.log_two_gt_d9
          linarith
      _ = 1.177410023 := Real.sqrt_sq (by norm_num)
  have hmono := zCore_lt_zCore (Real.sqrt_nonneg (2 * Real.log 2)) ht
  have hval : zCore 1.177410023 < 0 := by
    rw [zCore]; norm_num
  linarith

/-- The probit approximation at `p = 0.5` is within `1e-5` of `0`. -/
theorem spatial_getZScore_half_gt : (-1e-5 : ℝ) < SpatialPower.getZScore 0.5 := by
  rw [spatial_getZScore_of_mem (by norm_num) (by norm_num)]
  have harg : -2 * Real.log (1 - (0.5 : ℝ)) = 2 * Real.log 2 := by
    have h1 : (1 : ℝ) - 0.5 = (2 : ℝ)⁻¹ := by norm_num
    rw [h1, Real.log_inv]; ring
  rw [harg]
  have hL2 := Real.log_two_gt_d9
  have ht : (1.177410021 : ℝ) < Real.sqrt (2 * Real.log 2) := by
    have h2 : ((1.177410021 : ℝ)) ^ 2 < 2 * Real.log 2 := by nlinarith
    calc (1.177410021 : ℝ) = Real.sqrt ((1.177410021 : ℝ) ^ 2) :=
          (Real.sqrt_sq (by norm_num)).symm
      _ < Real.sqrt (2 * Real.log 2) := Real.sqrt_lt_sqrt (by positivity) h2
  have hmono := zCore_lt_zCore (by norm_num : (0:ℝ) ≤ 1.177410021) ht
  have hval : (-1e-5 : ℝ) < zCore 1.177410021 := by
    rw [zCore]; norm_num
  linarith

/-- Counterexample to C5 as stated: the clamped probit is not monotonically
increasing — at `p = 1 - exp(-24.5) < 1` the rational approximation evaluates
(at `t = 7`) to about `6.58 > 6.5 = getZScore 1` — and `probit(0.5)` is not
exactly `0`. -/
theorem c5_probit_contract_counterexample :
    SpatialPower.getZScore 1 < SpatialPower.getZScore (1 - Real.exp (-24.5)) ∧
      SpatialPower.getZScore 0.5 ≠ 0 := by
  constructor
  · have hexp0 : (0 : ℝ) < Real.exp (-24.5) := Real.exp_pos _
    have hexp1 : Real.exp (-24.5) < 1 := by
      rw [Real.exp_lt_one_iff]; norm_num
    have h1 : SpatialPower.getZScore 1 = 6.5 := by
      rw [SpatialPower.getZScore, if_pos le_rfl]
    have h2 : SpatialPower.getZScore (1 - Real.exp (-24.5)) = zCore 7 := by
      rw [spatial_getZScore_of_mem (by linarith) (by linarith)]
      have harg : -2 * Real.log (1 - (1 - Real.exp (-24.5))) = 49 := by
        have h3 : (1 : ℝ) - (1 - Real.exp (-24.5)) = Real.exp (-24.5) := by ring
        rw [h3, Real.log_exp]; norm_num
      rw [harg]
      have h49 : (49 : ℝ) = 7 ^ 2 := by norm_num
      rw [h49, Real.sqrt_sq (by norm_num)]
    rw [h1, h2]
    rw [zCore]; norm_num
  · exact ne_of_lt spatial_getZScore_half_neg

/-- C5 (amended): the probit `getZScore` is strictly increasing on the open
interval `(0,1)`; `probit(0.5)` is within `1e-5` of `0` but strictly
negative (not exactly `0`); and inputs at or beyond `{0,1}` clamp to
`±6.5`.  (As stated the claim fails: monotonicity breaks across the clamp
at `1`, and `probit(0.5) ≠ 0`.) -/
theorem c5_probit_contract_amended :
    (∀ p q : ℝ, 0 < p → p < q → q < 1 →
      SpatialPower.getZScore p < SpatialPower.getZScore q) ∧
    ((-1e-5 : ℝ) < SpatialPower.getZScore 0.5 ∧ SpatialPower.getZScore 0.5 < 0) ∧
    (∀ p : ℝ, 1 ≤ p → SpatialPower.getZScore p = 6.5) ∧
    (∀ p : ℝ, p ≤ 0 → SpatialPower.getZScore p = -6.5) := by
  refine ⟨?_, ⟨spatial_getZScore_half_gt, spatial_getZScore_half_neg⟩, ?_, ?_⟩
  · intro p q h0 hpq h1
    rw [spatial_getZScore_of_mem h0 (lt_trans hpq h1),
      spatial_getZScore_of_mem (lt_trans h0 hpq) h1]
    exact zCore_lt_zCore (Real.sqrt_nonneg _) (tArg_lt_tArg h0 hpq h1)
  · intro p hp
    rw [SpatialPower.getZScore, if_pos hp]
  · intro p hp
    rw [SpatialPower.getZScore, if_neg (by linarith), if_pos hp]

/-- Witness for C5 (amended): strict monotonicity at a concrete pair. -/
theorem c5_probit_contract_amended_witness :
    SpatialPower.getZScore 0.25 < SpatialPower.getZScore 0.5 :=
  c5_probit_contract_amended.1 0.25 0.5 (by norm_num) (by norm_num) (by norm_num)

/-! ## The CDF series loop: stopping threshold and termination -/

theorem exp_23_gt : (2.7182818283 : ℝ) ^ (23 : ℕ) < Real.exp 23 := by
  have h23 : Real.exp 23 = Real.exp 1 ^ (23 : ℕ) := by
    rw [← Real.exp_nat_mul]; norm_num
  rw [h23]
  exact pow_lt_pow_left Real.exp_one_gt_d9 (by norm_num) (by norm_num)

theorem exp_23_lt : Real.exp 23 < (2.7182818286 : ℝ) ^ (23 : ℕ) := by
  have h23 : Real.exp 23 = Real.exp 1 ^ (23 : ℕ) := by
    rw [← Real.exp_nat_mul]; norm_num
  rw [h23]
  exact pow_lt_pow_left Real.exp_one_lt_d9 (Real.exp_pos 1).le (by norm_num)

theorem exp_neg23_lt (r : ℝ) (h : 1 ≤ r * 2.7182818283 ^ (23 : ℕ)) :
    Real.exp (-23) < r := by
  have hpow : (0 : ℝ) < 2.7182818283 ^ (23 : ℕ) := by positivity
  have hr : 0 < r := by nlinarith
  have h2 : r * 2.7182818283 ^ (23 : ℕ) < r * Real.exp 23 :=
    mul_lt_mul_of_pos_left exp_23_gt hr
  rw [Real.exp_neg, ← one_div, div_lt_iff (Real.exp_pos _)]
  linarith

theorem le_exp_neg23 (r : ℝ) (hr : 0 ≤ r) (h : r * 2.7182818286 ^ (23 : ℕ) ≤ 1) :
    r ≤ Real.exp (-23) := by
  have h2 : r * Real.exp 23 ≤ r * 2.7182818286 ^ (23 : ℕ) :=
    mul_le_mul_of_nonneg_left exp_23_lt.le hr
  rw [Real.exp_neg, ← one_div, le_div_iff (Real.exp_pos _)]
  linarith

theorem stopIndex_spec (z : ℝ) : |seriesTerm z (stopIndex z)| ≤ Real.exp (-23) := by
  unfold stopIndex
  generalize_proofs h
  exact Nat.find_spec h

theorem stopIndex_min (z : ℝ) {j : ℕ} (hj : j < stopIndex z) :
    Real.exp (-23) < |seriesTerm z j| := by
  rw [← not_le]
  intro hle
  unfold stopIndex at hj
  revert hj
  generalize_proofs h
  intro hj
  exact absurd (Nat.find_min' h hle) (Nat.not_le.mpr hj)

/-- At `z = 1` the term magnitudes reduce to `0.3989422804/((2k+1)·2^k·k!)`. -/
theorem seriesTerm_one_abs (k : ℕ) :
    |seriesTerm 1 k| =
      0.3989422804 / ((2 * (k : ℝ) + 1) * (2 ^ k * (Nat.factorial k : ℝ))) := by
  have h1 : seriesTerm 1 k = (0.3989422804 * (-1) ^ k) /
      ((2 * (k : ℝ) + 1) * (2 ^ k * (Nat.factorial k : ℝ))) := by
    rw [seriesTerm, one_pow, mul_one, div_div, div_div]
  rw [h1, abs_div, abs_mul]
  have h2 : |((-1 : ℝ)) ^ k| = 1 := by rw [abs_pow]; norm_num
  have h3 : |(0.3989422804 : ℝ)| = 0.3989422804 := by
    rw [abs_of_pos]; norm_num
  have h4 : |(2 * (k : ℝ) + 1) * (2 ^ k * (Nat.factorial k : ℝ))| =
      (2 * (k : ℝ) + 1) * (2 ^ k * (Nat.factorial k : ℝ)) := by
    rw [abs_of_pos]
    have : (0 : ℝ) < (Nat.factorial k : ℝ) := by exact_mod_cast Nat.factorial_pos k
    positivity
  rw [h2, h3, h4, mul_one]

/-- At `z = 1` the source loop stops after the term of index 10. -/
theorem stopIndex_one : stopIndex 1 = 10 := by
  unfold stopIndex
  rw [Nat.find_eq_iff]
  refine ⟨?_, ?_⟩
  · rw [seriesTerm_one_abs]
    exact le_exp_neg23 _ (by positivity) (by norm_num [Nat.factorial])
  · intro n hn
    rw [not_le, seriesTerm_one_abs]
    interval_cases n <;>
      exact exp_neg23_lt _ (by norm_num [Nat.factorial])

/-- Counterexample to C6 as stated: at `z = 1` the loop stops at term index
10, whose magnitude (about `5.1e-12`) is far above `1e-23`; the actual
stopping threshold is `exp (-23) ≈ 1.03e-10`, not `1e-23`. -/
theorem c6_cdf_series_counterexample :
    stopIndex 1 = 10 ∧
    SpatialPower.getNormalProbability 1 =
      (∑ k in Finset.range 11, seriesTerm 1 k) + 0.5 ∧
    (1e-23 : ℝ) < |seriesTerm 1 (stopIndex 1)| := by
  refine ⟨stopIndex_one, ?_, ?_⟩
  · rw [SpatialPower.getNormalProbability, if_neg (by norm_num), if_neg (by norm_num),
      stopIndex_one]
  · rw [stopIndex_one, seriesTerm_one_abs]
    norm_num [Nat.factorial]

/-- C6 (amended): `getNormalProbability` returns `0`/`1` directly for
`|z| > 6.5` without entering the series loop; for `|z| ≤ 6.5` the loop
terminates; and the summation runs up to the first term of magnitude
`≤ exp (-23)` — the threshold is `exp (-23) ≈ 1.03e-10`, not `1e-23`. -/
theorem c6_cdf_series_amended :
    (∀ z : ℝ, z < -6.5 → SpatialPower.getNormalProbability z = 0) ∧
    (∀ z : ℝ, 6.5 < z → SpatialPower.getNormalProbability z = 1) ∧
    (∀ z : ℝ, |z| ≤ 6.5 → ∃ k, |seriesTerm z k| ≤ Real.exp (-23)) ∧
    (∀ z : ℝ, -6.5 ≤ z → z ≤ 6.5 →
      SpatialPower.getNormalProbability z =
        (∑ k in Finset.range (stopIndex z + 1), seriesTerm z k) + 0.5 ∧
      |seriesTerm z (stopIndex z)| ≤ Real.exp (-23) ∧
      ∀ j < stopIndex z, Real.exp (-23) < |seriesTerm z j|) := by
  refine ⟨?_, ?_, ?_, ?_⟩
  · intro z hz
    rw [SpatialPower.getNormalProbability, if_pos hz]
  · intro z hz
    rw [SpatialPower.getNormalProbability, if_neg (by linarith), if_pos hz]
  · intro z _
    exact ⟨stopIndex z, stopIndex_spec z⟩
  · intro z hz1 hz2
    refine ⟨?_, stopIndex_spec z, fun j hj => stopIndex_min z hj⟩
    rw [SpatialPower.getNormalProbability, if_neg (by linarith), if_neg (by linarith)]

/-- Witness for C6 (amended): direct `0` return at `z = -7`. -/
theorem c6_cdf_series_amended_witness :
    SpatialPower.getNormalProbability (-7) = 0 :=
  c6_cdf_series_amended.1 (-7) (by norm_num)

/-! ## Numeric bounds on `log 5` and `exp 0.7` -/

theorem exp_of_low_arg_ge : (1.8393973 : ℝ) ≤ Real.exp 0.6094380 := by
  have hx : |(0.6094380 : ℝ)| ≤ 1 := by
    rw [abs_of_pos (by norm_num : (0 : ℝ) < 0.6094380)]; norm_num
  have hb := Real.exp_bound hx (by norm_num : 0 < 11)
  have h1 := (abs_le.mp hb).1
  simp only [Finset.sum_range_succ, Finset.sum_range_zero, Nat.factorial,
    Nat.succ_eq_add_one] at h1
  rw [abs_of_pos (by norm_num : (0 : ℝ) < 0.6094380)] at h1
  norm_num at h1
  linarith

theorem exp_of_low_arg_le : Real.exp 0.6094379 ≤ (1.8393972 : ℝ) := by
  have hx : |(0.6094379 : ℝ)| ≤ 1 := by
    rw [abs_of_pos (by norm_num : (0 : ℝ) < 0.6094379)]; norm_num
  have hb := Real.exp_bound hx (by norm_num : 0 < 11)
  have h1 := (abs_le.mp hb).2
  simp only [Finset.sum_range_succ, Finset.sum_range_zero, Nat.factorial,
    Nat.succ_eq_add_one] at h1
  rw [abs_of_pos (by norm_num : (0 : ℝ) < 0.6094379)] at h1
  norm_num at h1
  linarith

theorem log_five_lt : Real.log 5 < 1.6094380 := by
  have h5 : (5 : ℝ) < Real.exp 1.6094380 := by
    have hsplit : Real.exp (1.6094380 : ℝ) = Real.exp 1 * Real.exp 0.6094380 := by
      rw [← Real.exp_add]; norm_num
    rw [hsplit]
    calc (5 : ℝ) < 2.7182818283 * 1.8393973 := by norm_num
      _ ≤ Real.exp 1 * Real.exp 0.6094380 :=
          mul_le_mul Real.exp_one_gt_d9.le exp_of_low_arg_ge (by norm_num)
            (Real.exp_pos 1).le
  have h2 : Real.exp (Real.log 5) < Real.exp 1.6094380 := by
    rw [Real.exp_log (by norm_num : (0 : ℝ) < 5)]; exact h5
  exact Real.exp_lt_exp.mp h2

theorem log_five_gt : (1.6094379 : ℝ) < Real.log 5 := by
  rw [Real.lt_log_iff_exp_lt (by norm_num : (0 : ℝ) < 5)]
  have hsplit : Real.exp (1.6094379 : ℝ) = Real.exp 1 * Real.exp 0.6094379 := by
    rw [← Real.exp_add]; norm_num
  rw [hsplit]
  calc Real.exp 1 * Real.exp 0.6094379 ≤ 2.7182818286 * 1.8393972 :=
        mul_le_mul Real.exp_one_lt_d9.le exp_of_low_arg_le (Real.exp_pos _).le
          (by norm_num)
    _ < 5 := by norm_num

theorem exp_seven_tenths_lt : Real.exp 0.7 < 100 / 49 := by
  have h10 : Real.exp 0.7 ^ (10 : ℕ) = Real.exp 7 := by
    rw [← Real.exp_nat_mul]; norm_num
  have h7 : Real.exp 7 = Real.exp 1 ^ (7 : ℕ) := by
    rw [← Real.exp_nat_mul]; norm_num
  have hlt : Real.exp 7 < 2.7182818286 ^ (7 : ℕ) := by
    rw [h7]
    exact pow_lt_pow_left Real.exp_one_lt_d9 (Real.exp_pos 1).le (by norm_num)
  have hp : Real.exp 0.7 ^ (10 : ℕ) < (100 / 49 : ℝ) ^ (10 : ℕ) := by
    rw [h10]
    calc Real.exp 7 < 2.7182818286 ^ (7 : ℕ) := hlt
      _ < (100 / 49 : ℝ) ^ (10 : ℕ) := by norm_num
  exact lt_of_pow_lt_pow_left 10 (by positivity) hp

/-- `zCore` is nonnegative from `t = 1.183` on (indeed `zCore 1.183 > 0`). -/
theorem zCore_nonneg_of_ge {t : ℝ} (h : 1.183 ≤ t) : 0 ≤ zCore t := by
  have h1 : (0 : ℝ) < zCore 1.183 := by rw [zCore]; norm_num
  have h2 : zCore 1.183 ≤ zCore t := zCore_le_zCore (by norm_num) h
  linarith

/-! ## The proteomic reference scenario -/

theorem effectiveAlpha_uncorrected (alpha m : ℝ) :
    PowerCalculator.effectiveAlpha alpha false m = alpha := by
  rw [PowerCalculator.effectiveAlpha, if_neg]
  simp

theorem cohensD_ref : PowerCalculator.cohensD 100 20 8 45 = 20 / Real.sqrt 2089 := by
  rw [PowerCalculator.cohensD, PowerCalculator.diff, PowerCalculator.sd,
    PowerCalculator.totalCv]
  have h : ((8 : ℝ) ^ 2 + 45 ^ 2) = 2089 := by norm_num
  rw [h, abs_of_pos (by norm_num : (0 : ℝ) < 100 * (20 / 100))]
  have hs : (0 : ℝ) < Real.sqrt 2089 := Real.sqrt_pos.2 (by norm_num)
  field_simp

theorem sqrt2089_gt : (45.70 : ℝ) < Real.sqrt 2089 := by
  calc (45.70 : ℝ) = Real.sqrt (45.70 ^ 2) := (Real.sqrt_sq (by norm_num)).symm
    _ < Real.sqrt 2089 := Real.sqrt_lt_sqrt (by positivity) (by norm_num)

theorem sqrt2089_lt : Real.sqrt 2089 < 45.71 := by
  calc Real.sqrt 2089 < Real.sqrt (45.71 ^ 2) := Real.sqrt_lt_sqrt (by norm_num) (by norm_num)
    _ = 45.71 := Real.sqrt_sq (by norm_num)

theorem zAlpha_ref_bounds :
    zCore 2.71620301 ≤ PowerCalculator.getZScore 0.975 ∧
      PowerCalculator.getZScore 0.975 ≤ zCore 2.71620307 := by
  have hform : PowerCalculator.getZScore 0.975 =
      zCore (Real.sqrt (6 * Real.log 2 + 2 * Real.log 5)) := by
    rw [PowerCalculator.getZScore]
    have h1 : (1 : ℝ) - 0.975 = ((40 : ℝ))⁻¹ := by norm_num
    rw [h1, Real.log_inv]
    have h40 : (40 : ℝ) = 2 ^ 3 * 5 := by norm_num
    rw [h40, Real.log_mul (by norm_num) (by norm_num), Real.log_pow]
    norm_num
    ring_nf
  have hL2lo := Real.log_two_gt_d9
  have hL2hi := Real.log_two_lt_d9
  have hL5lo := log_five_gt
  have hL5hi := log_five_lt
  have harg_lo : (2.71620301 : ℝ) ^ 2 ≤ 6 * Real.log 2 + 2 * Real.log 5 := by nlinarith
  have harg_hi : 6 * Real.log 2 + 2 * Real.log 5 ≤ (2.71620307 : ℝ) ^ 2 := by nlinarith
  have ht_lo : (2.71620301 : ℝ) ≤ Real.sqrt (6 * Real.log 2 + 2 * Real.log 5) := by
    calc (2.71620301 : ℝ) = Real.sqrt ((2.71620301 : ℝ) ^ 2) :=
          (Real.sqrt_sq (by norm_num)).symm
      _ ≤ _ := Real.sqrt_le_sqrt harg_lo
  have ht_hi : Real.sqrt (6 * Real.log 2 + 2 * Real.log 5) ≤ 2.71620307 := by
    calc Real.sqrt (6 * Real.log 2 + 2 * Real.log 5) ≤
          Real.sqrt ((2.71620307 : ℝ) ^ 2) := Real.sqrt_le_sqrt harg_hi
      _ = 2.71620307 := Real.sqrt_sq (by norm_num)
  rw [hform]
  exact ⟨zCore_le_zCore (by norm_num) ht_lo, zCore_le_zCore (Real.sqrt_nonneg _) ht_hi⟩

theorem zBeta_ref_bounds :
    zCore 1.79412256 ≤ PowerCalculator.getZScore 0.8 ∧
      PowerCalculator.getZScore 0.8 ≤ zCore 1.79412263 := by
  have hform : PowerCalculator.getZScore 0.8 = zCore (Real.sqrt (2 * Real.log 5)) := by
    rw [PowerCalculator.getZScore]
    have h1 : (1 : ℝ) - 0.8 = ((5 : ℝ))⁻¹ := by norm_num
    rw [h1, Real.log_inv]
    ring_nf
  have hL5lo := log_five_gt
  have hL5hi := log_five_lt
  have harg_lo : (1.79412256 : ℝ) ^ 2 ≤ 2 * Real.log 5 := by nlinarith
  have harg_hi : 2 * Real.log 5 ≤ (1.79412263 : ℝ) ^ 2 := by nlinarith
  have ht_lo : (1.79412256 : ℝ) ≤ Real.sqrt (2 * Real.log 5) := by
    calc (1.79412256 : ℝ) = Real.sqrt ((1.79412256 : ℝ) ^ 2) :=
          (Real.sqrt_sq (by norm_num)).symm
      _ ≤ _ := Real.sqrt_le_sqrt harg_lo
  have ht_hi : Real.sqrt (2 * Real.log 5) ≤ 1.79412263 := by
    calc Real.sqrt (2 * Real.log 5) ≤ Real.sqrt ((1.79412263 : ℝ) ^ 2) :=
          Real.sqrt_le_sqrt harg_hi
      _ = 1.79412263 := Real.sqrt_sq (by norm_num)
  rw [hform]
  exact ⟨zCore_le_zCore (by norm_num) ht_lo, zCore_le_zCore (Real.sqrt_nonneg _) ht_hi⟩

/-- The reference scenario's required sample size is exactly 82 per arm. -/
theorem requiredN_ref : PowerCalculator.requiredN 100 20 8 45 0.05 0.8 false 1 = 82 := by
  have hs : (0 : ℝ) < Real.sqrt 2089 := Real.sqrt_pos.2 (by norm_num)
  have hdpos : 0 < PowerCalculator.cohensD 100 20 8 45 := by
    rw [cohensD_ref]; positivity
  simp only [PowerCalculator.requiredN]
  rw [if_pos hdpos, effectiveAlpha_uncorrected]
  have h975 : (1 : ℝ) - 0.05 / 2 = 0.975 := by norm_num
  rw [h975, cohensD_ref]
  set s := PowerCalculator.getZScore 0.975 + PowerCalculator.getZScore 0.8 with hsdef
  have hslo : zCore 2.71620301 + zCore 1.79412256 ≤ s :=
    add_le_add zAlpha_ref_bounds.1 zBeta_ref_bounds.1
  have hshi : s ≤ zCore 2.71620307 + zCore 1.79412263 :=
    add_le_add zAlpha_ref_bounds.2 zBeta_ref_bounds.2
  have hslo_pos : (0 : ℝ) < zCore 2.71620301 + zCore 1.79412256 := by
    rw [zCore, zCore]; norm_num
  have hval : 2 * (s / (20 / Real.sqrt 2089)) ^ 2 = s ^ 2 * 2089 / 200 := by
    rw [div_div_eq_mul_div, div_pow, mul_pow,
      Real.sq_sqrt (by norm_num : (0 : ℝ) ≤ 2089)]
    ring
  rw [hval, Int.ceil_eq_iff]
  constructor
  · have hsq : (zCore 2.71620301 + zCore 1.79412256) ^ 2 ≤ s ^ 2 :=
      pow_le_pow_left hslo_pos.le hslo 2
    have hnum : (81 : ℝ) < (zCore 2.71620301 + zCore 1.79412256) ^ 2 * 2089 / 200 := by
      rw [zCore, zCore]; norm_num
    push_cast
    linarith
  · have hsq : s ^ 2 ≤ (zCore 2.71620307 + zCore 1.79412263) ^ 2 :=
      pow_le_pow_left (le_trans hslo_pos.le hslo) hshi 2
    have hnum : (zCore 2.71620307 + zCore 1.79412263) ^ 2 * 2089 / 200 ≤ 82 := by
      rw [zCore, zCore]; norm_num
    push_cast
    linarith

/-- Counterexample to C3 as stated: the reference scenario's `requiredN` is
not approximately 84 — it is exactly 82. -/
theorem c3_proteomic_reference_counterexample :
    PowerCalculator.requiredN 100 20 8 45 0.05 0.8 false 1 ≠ 84 := by
  rw [requiredN_ref]
  decide

/-- C3 (amended): at the reference scenario (`controlMean = 100`,
`percentChange = 20`, `techCV = 8`, `bioCV = 45`, `alpha = 0.05`,
`targetPower = 0.8`, no correction), `totalCV ≈ 45.7`, Cohen's `d ≈ 0.437`,
and `requiredN = 82` (the claim's "approximately 84" is wrong). -/
theorem c3_proteomic_reference_amended :
    (45.70 < PowerCalculator.totalCv 8 45 ∧ PowerCalculator.totalCv 8 45 < 45.71) ∧
    (0.437 < PowerCalculator.cohensD 100 20 8 45 ∧
      PowerCalculator.cohensD 100 20 8 45 < 0.438) ∧
    PowerCalculator.requiredN 100 20 8 45 0.05 0.8 false 1 = 82 := by
  have hs : (0 : ℝ) < Real.sqrt 2089 := Real.sqrt_pos.2 (by norm_num)
  have htc : PowerCalculator.totalCv 8 45 = Real.sqrt 2089 := by
    rw [PowerCalculator.totalCv]
    norm_num
  refine ⟨⟨?_, ?_⟩, ⟨?_, ?_⟩, requiredN_ref⟩
  · rw [htc]; exact sqrt2089_gt
  · rw [htc]; exact sqrt2089_lt
  · rw [cohensD_ref, lt_div_iff hs]
    nlinarith [sqrt2089_lt]
  · rw [cohensD_ref, div_lt_iff hs]
    nlinarith [sqrt2089_gt]

/-! ## Monotonicity of the proteomic `requiredN` -/

theorem requiredN_nonneg (cm pc tech bio alpha tp : ℝ) (corr : Bool) (m : ℝ) :
    0 ≤ PowerCalculator.requiredN cm pc tech bio alpha tp corr m := by
  simp only [PowerCalculator.requiredN]
  split
  · exact Int.ceil_nonneg (by positivity)
  · exact le_refl 0

theorem ceil_power_term_antitone {s d1 d2 : ℝ} (hd1 : 0 < d1) (hd : d1 ≤ d2) :
    (⌈2 * (s / d2) ^ 2⌉ : ℤ) ≤ ⌈2 * (s / d1) ^ 2⌉ := by
  apply Int.ceil_le_ceil
  have h1 : (s / d2) ^ 2 ≤ (s / d1) ^ 2 := by
    rw [div_pow, div_pow]
    exact div_le_div_of_nonneg_left (sq_nonneg s) (pow_pos hd1 2)
      (pow_le_pow_left hd1.le hd 2)
  linarith

theorem ceil_power_term_mono_s {s1 s2 d : ℝ} (hd : 0 < d) (hs1 : 0 ≤ s1) (hs : s1 ≤ s2) :
    (⌈2 * (s1 / d) ^ 2⌉ : ℤ) ≤ ⌈2 * (s2 / d) ^ 2⌉ := by
  apply Int.ceil_le_ceil
  have h1 : s1 ^ 2 ≤ s2 ^ 2 := pow_le_pow_left hs1 hs 2
  have h2 : s1 ^ 2 / d ^ 2 ≤ s2 ^ 2 / d ^ 2 := (div_le_div_right (pow_pos hd 2)).mpr h1
  rw [div_pow, div_pow]
  linarith

theorem getZScore_tail_le {x y : ℝ} (hy : 0 < y) (hxy : y ≤ x) :
    PowerCalculator.getZScore (1 - x) ≤ PowerCalculator.getZScore (1 - y) := by
  rw [PowerCalculator.getZScore, PowerCalculator.getZScore]
  have hax : (1 : ℝ) - (1 - x) = x := by ring
  have hay : (1 : ℝ) - (1 - y) = y := by ring
  rw [hax, hay]
  apply zCore_le_zCore (Real.sqrt_nonneg _)
  apply Real.sqrt_le_sqrt
  have := Real.log_le_log hy hxy
  linarith

theorem probit_tail_t_ge {x : ℝ} (hx0 : 0 < x) (hx : x ≤ 1 / 4) :
    (1.665 : ℝ) ≤ Real.sqrt (-2 * Real.log x) := by
  have hlog4 : Real.log ((1 : ℝ) / 4) = -(2 * Real.log 2) := by
    rw [show (1 / 4 : ℝ) = ((4 : ℝ))⁻¹ by norm_num, Real.log_inv,
      show (4 : ℝ) = 2 ^ 2 by norm_num, Real.log_pow]
    push_cast
    ring
  have hlog : Real.log x ≤ -(2 * Real.log 2) := by
    rw [← hlog4]
    exact Real.log_le_log hx0 hx
  have harg : (1.665 : ℝ) ^ 2 ≤ -2 * Real.log x := by
    have := Real.log_two_gt_d9
    nlinarith
  calc (1.665 : ℝ) = Real.sqrt ((1.665 : ℝ) ^ 2) := (Real.sqrt_sq (by norm_num)).symm
    _ ≤ _ := Real.sqrt_le_sqrt harg

theorem getZScore_alpha_nonneg {alpha : ℝ} (h0 : 0 < alpha) (h2 : alpha ≤ 1 / 2) :
    0 ≤ PowerCalculator.getZScore (1 - alpha / 2) := by
  rw [PowerCalculator.getZScore]
  have harg : (1 : ℝ) - (1 - alpha / 2) = alpha / 2 := by ring
  rw [harg]
  apply zCore_nonneg_of_ge
  have := probit_tail_t_ge (x := alpha / 2) (by linarith) (by linarith)
  linarith

theorem getZScore_tp_nonneg {tp : ℝ} (h1 : 0.51 ≤ tp) (h2 : tp < 1) :
    0 ≤ PowerCalculator.getZScore tp := by
  rw [PowerCalculator.getZScore]
  apply zCore_nonneg_of_ge
  have h1tp0 : (0 : ℝ) < 1 - tp := by linarith
  have h1tp : (1 : ℝ) - tp ≤ 0.49 := by linarith
  have hpos : (0 : ℝ) < Real.exp 0.7 := Real.exp_pos _
  have hexp : (0.49 : ℝ) < Real.exp (-0.7) := by
    have hmul : Real.exp 0.7 * 0.49 < 1 := by nlinarith [exp_seven_tenths_lt]
    calc (0.49 : ℝ) = 0.49 * (Real.exp 0.7 * (Real.exp 0.7)⁻¹) := by
          rw [mul_inv_cancel₀ hpos.ne']; ring
      _ = Real.exp 0.7 * 0.49 * (Real.exp 0.7)⁻¹ := by ring
      _ < 1 * (Real.exp 0.7)⁻¹ := by
          exact mul_lt_mul_of_pos_right hmul (inv_pos.2 hpos)
      _ = Real.exp (-0.7) := by rw [one_mul, Real.exp_neg]
  have hlog49 : Real.log 0.49 < -0.7 := by
    calc Real.log 0.49 < Real.log (Real.exp (-0.7)) :=
          Real.log_lt_log (by norm_num) hexp
      _ = -0.7 := Real.log_exp _
  have hlog : Real.log (1 - tp) < -0.7 :=
    lt_of_le_of_lt (Real.log_le_log h1tp0 h1tp) hlog49
  have harg : (1.183 : ℝ) ^ 2 ≤ -2 * Real.log (1 - tp) := by nlinarith
  calc (1.183 : ℝ) = Real.sqrt ((1.183 : ℝ) ^ 2) := (Real.sqrt_sq (by norm_num)).symm
    _ ≤ _ := Real.sqrt_le_sqrt harg

/-- Counterexample to C4 as stated: `requiredN` is not non-increasing in
`|percentChange|` across `percentChange = 0` — at the reference scenario it
jumps from `0` (at `percentChange = 0`, the degenerate-effect guard) to
`82` (at `percentChange = 20`). -/
theorem c4_proteomic_monotonicity_counterexample :
    |(0 : ℝ)| ≤ |(20 : ℝ)| ∧
      PowerCalculator.requiredN 100 0 8 45 0.05 0.8 false 1 <
        PowerCalculator.requiredN 100 20 8 45 0.05 0.8 false 1 := by
  refine ⟨by norm_num, ?_⟩
  have h0 : PowerCalculator.requiredN 100 0 8 45 0.05 0.8 false 1 = 0 := by
    simp only [PowerCalculator.requiredN]
    rw [if_neg]
    rw [PowerCalculator.cohensD, PowerCalculator.diff]
    norm_num
  rw [h0, requiredN_ref]
  decide

/-- C4 (amended): over the proteomic model, (a) `requiredN` is non-increasing
in `|percentChange|` restricted to nonzero `percentChange` (at
`percentChange = 0` the degenerate-effect guard returns `0`); (b) it is
non-decreasing as the nonnegative CV components increase; and (c) enabling
the Bonferroni correction with `analyteCount > 1` never decreases
`requiredN` (for `0 < α ≤ 1/2` and target power in `[0.51, 1)`). -/
theorem c4_proteomic_monotonicity_amended :
    (∀ cm techCv bioCv alpha tp m p1 p2 : ℝ, ∀ corr : Bool, p1 ≠ 0 → |p1| ≤ |p2| →
      PowerCalculator.requiredN cm p2 techCv bioCv alpha tp corr m ≤
        PowerCalculator.requiredN cm p1 techCv bioCv alpha tp corr m) ∧
    (∀ cm pc alpha tp m t1 b1 t2 b2 : ℝ, ∀ corr : Bool,
      0 ≤ t1 → t1 ≤ t2 → 0 ≤ b1 → b1 ≤ b2 →
      PowerCalculator.requiredN cm pc t1 b1 alpha tp corr m ≤
        PowerCalculator.requiredN cm pc t2 b2 alpha tp corr m) ∧
    (∀ cm pc techCv bioCv alpha tp m : ℝ, 0 < alpha → alpha ≤ 1 / 2 →
      0.51 ≤ tp → tp < 1 → 1 < m →
      PowerCalculator.requiredN cm pc techCv bioCv alpha tp false m ≤
        PowerCalculator.requiredN cm pc techCv bioCv alpha tp true m) := by
  refine ⟨?_, ?_, ?_⟩
  · -- (a) non-increasing in |percentChange| away from 0
    intro cm tech bio alpha tp m p1 p2 corr hp1 habs
    by_cases h2 : 0 < PowerCalculator.cohensD cm p2 tech bio
    · have hsd : 0 < PowerCalculator.sd cm tech bio := by
        by_contra h
        push_neg at h
        have hle : PowerCalculator.cohensD cm p2 tech bio ≤ 0 := by
          rw [PowerCalculator.cohensD]
          exact div_nonpos_iff.mpr (Or.inl ⟨abs_nonneg _, h⟩)
        exact absurd h2 (not_lt.mpr hle)
      have hdiff2 : 0 < PowerCalculator.diff cm p2 := by
        by_contra h
        push_neg at h
        have h0 : PowerCalculator.diff cm p2 = 0 :=
          le_antisymm h (abs_nonneg _)
        have hz : PowerCalculator.cohensD cm p2 tech bio = 0 := by
          rw [PowerCalculator.cohensD, h0, zero_div]
        rw [hz] at h2
        exact lt_irrefl 0 h2
      have hcm : cm ≠ 0 := by
        intro h
        rw [PowerCalculator.diff, h] at hdiff2
        simp at hdiff2
      have hdiff1 : 0 < PowerCalculator.diff cm p1 := by
        rw [PowerCalculator.diff]
        apply abs_pos.mpr
        apply mul_ne_zero hcm
        intro h
        rcases div_eq_zero_iff.mp h with h' | h'
        · exact hp1 h'
        · norm_num at h'
      have hd1 : 0 < PowerCalculator.cohensD cm p1 tech bio := by
        rw [PowerCalculator.cohensD]
        exact div_pos hdiff1 hsd
      have hdd : PowerCalculator.cohensD cm p1 tech bio ≤
          PowerCalculator.cohensD cm p2 tech bio := by
        rw [PowerCalculator.cohensD, PowerCalculator.cohensD]
        apply (div_le_div_right hsd).mpr
        rw [PowerCalculator.diff, PowerCalculator.diff, abs_mul, abs_mul]
        apply mul_le_mul_of_nonneg_left _ (abs_nonneg cm)
        rw [abs_div, abs_div, abs_of_pos (by norm_num : (0 : ℝ) < 100)]
        exact (div_le_div_right (by norm_num)).mpr habs
      have hN1 : PowerCalculator.requiredN cm p1 tech bio alpha tp corr m =
          ⌈2 * ((PowerCalculator.getZScore
              (1 - PowerCalculator.effectiveAlpha alpha corr m / 2) +
            PowerCalculator.getZScore tp) /
              PowerCalculator.cohensD cm p1 tech bio) ^ 2⌉ := by
        simp only [PowerCalculator.requiredN]
        rw [if_pos hd1]
      have hN2 : PowerCalculator.requiredN cm p2 tech bio alpha tp corr m =
          ⌈2 * ((PowerCalculator.getZScore
              (1 - PowerCalculator.effectiveAlpha alpha corr m / 2) +
            PowerCalculator.getZScore tp) /
              PowerCalculator.cohensD cm p2 tech bio) ^ 2⌉ := by
        simp only [PowerCalculator.requiredN]
        rw [if_pos h2]
      rw [hN1, hN2]
      exact ceil_power_term_antitone hd1 hdd
    · have hN2 : PowerCalculator.requiredN cm p2 tech bio alpha tp corr m = 0 := by
        simp only [PowerCalculator.requiredN]
        rw [if_neg h2]
      rw [hN2]
      exact requiredN_nonneg cm p1 tech bio alpha tp corr m
  · -- (b) non-decreasing in the CV components
    intro cm pc alpha tp m t1 b1 t2 b2 corr ht0 ht hb0 hb
    by_cases h1 : 0 < PowerCalculator.cohensD cm pc t1 b1
    · have hsd1 : 0 < PowerCalculator.sd cm t1 b1 := by
        by_contra h
        push_neg at h
        have hle : PowerCalculator.cohensD cm pc t1 b1 ≤ 0 := by
          rw [PowerCalculator.cohensD]
          exact div_nonpos_iff.mpr (Or.inl ⟨abs_nonneg _, h⟩)
        exact absurd h1 (not_lt.mpr hle)
      have hdiff : 0 < PowerCalculator.diff cm pc := by
        by_contra h
        push_neg at h
        have h0 : PowerCalculator.diff cm pc = 0 := le_antisymm h (abs_nonneg _)
        have hz : PowerCalculator.cohensD cm pc t1 b1 = 0 := by
          rw [PowerCalculator.cohensD, h0, zero_div]
        rw [hz] at h1
        exact lt_irrefl 0 h1
      have hcm : 0 < cm := by
        by_contra h
        push_neg at h
        have : PowerCalculator.sd cm t1 b1 ≤ 0 := by
          rw [PowerCalculator.sd]
          exact mul_nonpos_of_nonpos_of_nonneg h
            (div_nonneg (Real.sqrt_nonneg _) (by norm_num))
        exact absurd hsd1 (not_lt.mpr this)
      have htot : PowerCalculator.totalCv t1 b1 ≤ PowerCalculator.totalCv t2 b2 := by
        rw [PowerCalculator.totalCv, PowerCalculator.totalCv]
        apply Real.sqrt_le_sqrt
        have h1 : t1 ^ 2 ≤ t2 ^ 2 := pow_le_pow_left ht0 ht 2
        have h2 : b1 ^ 2 ≤ b2 ^ 2 := pow_le_pow_left hb0 hb 2
        linarith
      have hsd12 : PowerCalculator.sd cm t1 b1 ≤ PowerCalculator.sd cm t2 b2 := by
        rw [PowerCalculator.sd, PowerCalculator.sd]
        apply mul_le_mul_of_nonneg_left _ hcm.le
        exact (div_le_div_right (by norm_num)).mpr htot
      have hsd2 : 0 < PowerCalculator.sd cm t2 b2 := lt_of_lt_of_le hsd1 hsd12
      have hd2 : 0 < PowerCalculator.cohensD cm pc t2 b2 := by
        rw [PowerCalculator.cohensD]
        exact div_pos hdiff hsd2
      have hdd : PowerCalculator.cohensD cm pc t2 b2 ≤
          PowerCalculator.cohensD cm pc t1 b1 := by
        rw [PowerCalculator.cohensD, PowerCalculator.cohensD]
        exact div_le_div_of_nonneg_left hdiff.le hsd1 hsd12
      have hN1 : PowerCalculator.requiredN cm pc t1 b1 alpha tp corr m =
          ⌈2 * ((PowerCalculator.getZScore
              (1 - PowerCalculator.effectiveAlpha alpha corr m / 2) +
            PowerCalculator.getZScore tp) /
              PowerCalculator.cohensD cm pc t1 b1) ^ 2⌉ := by
        simp only [PowerCalculator.requiredN]
        rw [if_pos h1]
      have hN2 : PowerCalculator.requiredN cm pc t2 b2 alpha tp corr m =
          ⌈2 * ((PowerCalculator.getZScore
              (1 - PowerCalculator.effectiveAlpha alpha corr m / 2) +
            PowerCalculator.getZScore tp) /
              PowerCalculator.cohensD cm pc t2 b2) ^ 2⌉ := by
        simp only [PowerCalculator.requiredN]
        rw [if_pos hd2]
      rw [hN1, hN2]
      exact ceil_power_term_antitone hd2 hdd
    · have hN1 : PowerCalculator.requiredN cm pc t1 b1 alpha tp corr m = 0 := by
        simp only [PowerCalculator.requiredN]
        rw [if_neg h1]
      rw [hN1]
      exact requiredN_nonneg cm pc t2 b2 alpha tp corr m
  · -- (c) Bonferroni never decreases requiredN
    intro cm pc tech bio alpha tp m h0 h12 htp1 htp2 hm
    by_cases hd : 0 < PowerCalculator.cohensD cm pc tech bio
    · have heaF : PowerCalculator.effectiveAlpha alpha false m = alpha :=
        effectiveAlpha_uncorrected alpha m
      have heaT : PowerCalculator.effectiveAlpha alpha true m = alpha / m := by
        rw [PowerCalculator.effectiveAlpha, if_pos ⟨rfl, hm⟩]
      have hm0 : (0 : ℝ) < m := by linarith
      have hy : (0 : ℝ) < alpha / m / 2 := by positivity
      have hxy : alpha / m / 2 ≤ alpha / 2 := by
        have : alpha / m ≤ alpha := le_of_lt (div_lt_self h0 hm)
        linarith
      have hzAle : PowerCalculator.getZScore (1 - alpha / 2) ≤
          PowerCalculator.getZScore (1 - alpha / m / 2) :=
        getZScore_tail_le hy hxy
      have hzA0 : 0 ≤ PowerCalculator.getZScore (1 - alpha / 2) :=
        getZScore_alpha_nonneg h0 h12
      have hzB0 : 0 ≤ PowerCalculator.getZScore tp := getZScore_tp_nonneg htp1 htp2
      have hNF : PowerCalculator.requiredN cm pc tech bio alpha tp false m =
          ⌈2 * ((PowerCalculator.getZScore (1 - alpha / 2) +
            PowerCalculator.getZScore tp) /
              PowerCalculator.cohensD cm pc tech bio) ^ 2⌉ := by
        simp only [PowerCalculator.requiredN]
        rw [if_pos hd, heaF]
      have hNT : PowerCalculator.requiredN cm pc tech bio alpha tp true m =
          ⌈2 * ((PowerCalculator.getZScore (1 - alpha / m / 2) +
            PowerCalculator.getZScore tp) /
              PowerCalculator.cohensD cm pc tech bio) ^ 2⌉ := by
        simp only [PowerCalculator.requiredN]
        rw [if_pos hd, heaT]
      rw [hNF, hNT]
      exact ceil_power_term_mono_s hd (add_nonneg hzA0 hzB0) (add_le_add_right hzAle _)
    · have hNF : PowerCalculator.requiredN cm pc tech bio alpha tp false m = 0 := by
        simp only [PowerCalculator.requiredN]
        rw [if_neg hd]
      have hNT : PowerCalculator.requiredN cm pc tech bio alpha tp true m = 0 := by
        simp only [PowerCalculator.requiredN]
        rw [if_neg hd]
      rw [hNF, hNT]

/-- Witness for C4 (amended): part (a) at a concrete nonzero pair of
percent changes. -/
theorem c4_proteomic_monotonicity_amended_witness :
    PowerCalculator.requiredN 100 40 8 45 0.05 0.8 false 1 ≤
      PowerCalculator.requiredN 100 20 8 45 0.05 0.8 false 1 :=
  c4_proteomic_monotonicity_amended.1 100 8 45 0.05 0.8 1 20 40 false
    (by norm_num) (by norm_num)

/-! ## Structure of the simulated measurement lists -/

namespace Simulation

/-- Each call of `generateMeasurementsForBiomarker` produces exactly four
measurements: one baseline plus three follow-ups. -/
theorem generateMeasurements_length (bio : BiomarkerDef) (arm : Arm)
    (config : SimulationConfig) (isR : Bool) (draws : ℕ → ℝ) :
    (generateMeasurementsForBiomarker bio arm config isR draws).length = 4 := rfl

/-- The (biomarker id, timepoint) keys of a generated measurement list: the
biomarker's id at each of the four timepoints, in order. -/
theorem generateMeasurements_keys (bio : BiomarkerDef) (arm : Arm)
    (config : SimulationConfig) (isR : Bool) (draws : ℕ → ℝ) :
    (generateMeasurementsForBiomarker bio arm config isR draws).map
        (fun m => (m.biomarkerId, m.timepoint)) =
      [(bio.id, Timepoint.BASELINE), (bio.id, Timepoint.WEEK_4),
       (bio.id, Timepoint.WEEK_12), (bio.id, Timepoint.WEEK_24)] := rfl

/-- Every generated measurement value sits on or above the `0.01` clamp. -/
theorem generateMeasurements_values (bio : BiomarkerDef) (arm : Arm)
    (config : SimulationConfig) (isR : Bool) (draws : ℕ → ℝ) :
    ∀ m ∈ generateMeasurementsForBiomarker bio arm config isR draws, 0.01 ≤ m.value := by
  intro m hm
  simp only [generateMeasurementsForBiomarker, List.enum, List.mem_cons, List.mem_map] at hm
  rcases hm with h | ⟨p, hp, h⟩
  · subst h; exact le_max_left _ _
  · subst h; exact le_max_left _ _

/-- A generated measurement carrying the `BASELINE` timepoint has both
change fields set to `0`. -/
theorem generateMeasurements_baseline_fields (bio : BiomarkerDef) (arm : Arm)
    (config : SimulationConfig) (isR : Bool) (draws : ℕ → ℝ) :
    ∀ m ∈ generateMeasurementsForBiomarker bio arm config isR draws,
      m.timepoint = Timepoint.BASELINE →
        m.changeFromBaseline = some 0 ∧ m.percentChange = some 0 := by
  intro m hm htp
  simp only [generateMeasurementsForBiomarker, List.enum, List.mem_cons, List.mem_map,
    List.mem_singleton] at hm
  rcases hm with h | ⟨p, hp, h⟩
  · subst h; exact ⟨rfl, rfl⟩
  · exfalso
    subst h
    fin_cases hp <;> simp_all

/-- `mapIdx` pairs each list element with its image under the indexed map. -/
theorem forall2_mapIdx {α β : Type} (R : α → β → Prop) :
    ∀ (l : List α) (f : ℕ → α → β), (∀ i a, R a (f i a)) → List.Forall₂ R l (l.mapIdx f)
  | [], _, _ => List.Forall₂.nil
  | a :: l, f, h => by
      rw [List.mapIdx_cons]
      exact List.Forall₂.cons (h 0 a)
        (forall2_mapIdx R l (fun i => f (i + 1)) (fun i a => h (i + 1) a))

/-- `augmentDataWithBiomarker` keeps every patient's id and arm and appends
the new biomarker's generated measurements to that patient's list. -/
theorem augment_forall2 (currentData : List PatientData) (nb : BiomarkerDef)
    (config : SimulationConfig) (respond : ℕ → Bool) (draws : ℕ → ℕ → ℝ) :
    List.Forall₂ (fun p q =>
        q.patientId = p.patientId ∧ q.arm = p.arm ∧
        ∃ i, q.measurements = p.measurements ++
          generateMeasurementsForBiomarker nb p.arm config (respond i) (draws i))
      currentData (augmentDataWithBiomarker currentData nb config respond draws) := by
  rw [augmentDataWithBiomarker]
  apply forall2_mapIdx
  intro i patient
  exact ⟨rfl, rfl, i, rfl⟩

/-- Each element of the right list of a `Forall₂` is related to an element
of the left list. -/
theorem exists_of_forall2_mem {α β : Type} {R : α → β → Prop} :
    ∀ {l : List α} {l' : List β}, List.Forall₂ R l l' → ∀ b ∈ l', ∃ a ∈ l, R a b := by
  intro l l' h
  induction h with
  | nil => intro b hb; exact absurd hb (List.not_mem_nil b)
  | @cons a b la lb hR hTail ih =>
      intro x hx
      rcases List.mem_cons.mp hx with h | h
      · exact ⟨a, List.mem_cons_self a la, by rw [h]; exact hR⟩
      · rcases ih x h with ⟨a', ha', hR'⟩
        exact ⟨a', List.mem_cons_of_mem a ha', hR'⟩

end Simulation

/-- C7: `augmentDataWithBiomarker` is strictly additive — pairing each input
patient with its output record, the measurement count grows by exactly 4,
the original measurements survive unchanged as a prefix in their original
order, and the patient's id and arm are unchanged. -/
theorem c7_augment_cohort_strictly_additive (currentData : List Simulation.PatientData)
    (newBiomarker : Simulation.BiomarkerDef) (config : Simulation.SimulationConfig)
    (respond : ℕ → Bool) (draws : ℕ → ℕ → ℝ) :
    List.Forall₂ (fun p q =>
        q.measurements.length = p.measurements.length + 4 ∧
        q.measurements.take p.measurements.length = p.measurements ∧
        q.patientId = p.patientId ∧ q.arm = p.arm)
      currentData
      (Simulation.augmentDataWithBiomarker currentData newBiomarker config respond draws) := by
  apply List.Forall₂.imp _
    (Simulation.augment_forall2 currentData newBiomarker config respond draws)
  rintro p q ⟨hid, harm, i, hmeas⟩
  refine ⟨?_, ?_, hid, harm⟩
  · rw [hmeas, List.length_append, Simulation.generateMeasurements_length]
  · rw [hmeas]
    exact List.take_left _ _

/-! ## Round-robin arm assignment -/

namespace Simulation

/-- Among the first `3*n` indices, exactly `n` fall in each residue class
mod 3. -/
theorem countP_range_mod3 (r : ℕ) (hr : r < 3) :
    ∀ n : ℕ, ((List.range (3 * n)).countP fun i => decide (i % 3 = r)) = n := by
  intro n
  induction n with
  | zero => rfl
  | succ k ih =>
      have h3 : 3 * (k + 1) = (3 * k) + 1 + 1 + 1 := by ring
      rw [h3, List.range_succ, List.range_succ, List.range_succ,
        List.countP_append, List.countP_append, List.countP_append, ih]
      have h0 : (3 * k) % 3 = 0 := Nat.mul_mod_right 3 k
      have h1 : (3 * k + 1) % 3 = 1 := by omega
      have h2 : (3 * k + 1 + 1) % 3 = 2 := by omega
      simp only [List.countP_cons, List.countP_nil, h0, h1, h2]
      interval_cases r <;> simp

/-- The patient generated at index `i` carries id `PT-` followed by the
padded index, the arm at position `i % 3` of the arm array, and one
generated measurement block per biomarker. -/
theorem generatedPatient_arm (patientCount : ℕ) (biomarkers : List BiomarkerDef)
    (config : SimulationConfig) (respond : ℕ → Bool)
    (draws : ℕ → BiomarkerDef → ℕ → ℝ) (i : ℕ) (h : i < patientCount) :
    (generateSimulatedData patientCount biomarkers config respond draws).getD i
        ⟨"", Arm.PLACEBO, []⟩ =
      ⟨"PT-" ++ patientIdOf i, armsList.getD (i % 3) Arm.PLACEBO,
        biomarkers.flatMap fun bio =>
          generateMeasurementsForBiomarker bio (armsList.getD (i % 3) Arm.PLACEBO)
            config (respond i) (draws i bio)⟩ := by
  have hlen : (generateSimulatedData patientCount biomarkers config respond draws).length
      = patientCount := by
    simp [generateSimulatedData]
  rw [List.getD_eq_getElem _ _ (by rw [hlen]; exact h)]
  simp only [generateSimulatedData, List.getElem_map, List.getElem_range]

/-- Counting patients of arm `a` reduces to counting indices in the residue
class `r` that the arm array maps to `a`. -/
theorem generated_countP_arm (patientCount : ℕ) (biomarkers : List BiomarkerDef)
    (config : SimulationConfig) (respond : ℕ → Bool)
    (draws : ℕ → BiomarkerDef → ℕ → ℝ) (a : Arm) (r : ℕ) (hr : r < 3)
    (ha : armsList.getD r Arm.PLACEBO = a)
    (honly : ∀ s : ℕ, s < 3 → armsList.getD s Arm.PLACEBO = a → s = r) :
    ((generateSimulatedData patientCount biomarkers config respond draws).countP
        fun p => decide (p.arm = a)) =
      (List.range patientCount).countP fun i => decide (i % 3 = r) := by
  rw [generateSimulatedData, List.countP_map]
  apply List.countP_congr
  intro i _
  have h3 : i % 3 < 3 := Nat.mod_lt i (by norm_num)
  show (decide (armsList.getD (i % 3) Arm.PLACEBO = a) = true) ↔ (decide (i % 3 = r) = true)
  simp only [decide_eq_true_eq]
  constructor
  · intro hc
    exact honly (i % 3) h3 hc
  · intro hc
    rw [hc, ha]

end Simulation

/-- C8: `generateSimulatedData` with 600 patients assigns arms round-robin by
index mod 3 (conjunct 1), yields exactly 200 patients in each of the three
arms (conjuncts 2–4), and every baseline measurement of every generated
patient has `changeFromBaseline = 0` and `percentChange = 0` (conjunct 5). -/
theorem c8_cohort_round_robin (biomarkers : List Simulation.BiomarkerDef)
    (config : Simulation.SimulationConfig) (respond : ℕ → Bool)
    (draws : ℕ → Simulation.BiomarkerDef → ℕ → ℝ) :
    (∀ i : ℕ, i < 600 →
      ((Simulation.generateSimulatedData 600 biomarkers config respond draws).getD i
          ⟨"", Simulation.Arm.PLACEBO, []⟩).arm =
        Simulation.armsList.getD (i % 3) Simulation.Arm.PLACEBO) ∧
    ((Simulation.generateSimulatedData 600 biomarkers config respond draws).countP
        fun p => decide (p.arm = Simulation.Arm.PLACEBO)) = 200 ∧
    ((Simulation.generateSimulatedData 600 biomarkers config respond draws).countP
        fun p => decide (p.arm = Simulation.Arm.DRUG_1MG)) = 200 ∧
    ((Simulation.generateSimulatedData 600 biomarkers config respond draws).countP
        fun p => decide (p.arm = Simulation.Arm.DRUG_2MG)) = 200 ∧
    (∀ p ∈ Simulation.generateSimulatedData 600 biomarkers config respond draws,
      ∀ m ∈ p.measurements, m.timepoint = Simulation.Timepoint.BASELINE →
        m.changeFromBaseline = some 0 ∧ m.percentChange = some 0) := by
  refine ⟨?_, ?_, ?_, ?_, ?_⟩
  · intro i hi
    rw [Simulation.generatedPatient_arm 600 biomarkers config respond draws i hi]
  · rw [Simulation.generated_countP_arm 600 biomarkers config respond draws
      Simulation.Arm.PLACEBO 0 (by norm_num) rfl
      (by intro s hs hsa; interval_cases s <;> first | rfl | exact absurd hsa (by decide)),
      show (600 : ℕ) = 3 * 200 from rfl,
      Simulation.countP_range_mod3 0 (by norm_num) 200]
  · rw [Simulation.generated_countP_arm 600 biomarkers config respond draws
      Simulation.Arm.DRUG_1MG 1 (by norm_num) rfl
      (by intro s hs hsa; interval_cases s <;> first | rfl | exact absurd hsa (by decide)),
      show (600 : ℕ) = 3 * 200 from rfl,
      Simulation.countP_range_mod3 1 (by norm_num) 200]
  · rw [Simulation.generated_countP_arm 600 biomarkers config respond draws
      Simulation.Arm.DRUG_2MG 2 (by norm_num) rfl
      (by intro s hs hsa; interval_cases s <;> first | rfl | exact absurd hsa (by decide)),
      show (600 : ℕ) = 3 * 200 from rfl,
      Simulation.countP_range_mod3 2 (by norm_num) 200]
  · intro p hp m hm htp
    simp only [Simulation.generateSimulatedData, List.mem_map, List.mem_range] at hp
    obtain ⟨i, hi, rfl⟩ := hp
    simp only [List.mem_flatMap] at hm
    obtain ⟨bio, hbio, hmbio⟩ := hm
    exact Simulation.generateMeasurements_baseline_fields bio _ config (respond i)
      (draws i bio) m hmbio htp

/-! ## The data-model invariant -/

namespace Simulation

/-- Counting measurements by (biomarker id, timepoint) factors through the
key projection. -/
theorem countP_key_proj (l : List Measurement) (b : String) (t : Timepoint) :
    (l.countP fun m => decide (m.biomarkerId = b) && decide (m.timepoint = t)) =
      ((l.map fun m => (m.biomarkerId, m.timepoint)).countP fun k => decide (k = (b, t))) := by
  rw [List.countP_map]
  apply List.countP_congr
  intro m _
  show (decide (m.biomarkerId = b) && decide (m.timepoint = t)) = true ↔
    decide ((m.biomarkerId, m.timepoint) = (b, t)) = true
  simp [Prod.ext_iff]

/-- A single generated block holds exactly one measurement per timepoint
when the biomarker id matches, and none otherwise. -/
theorem generateMeasurements_countP (bio : BiomarkerDef) (arm : Arm)
    (config : SimulationConfig) (isR : Bool) (draws : ℕ → ℝ) (b : String) (t : Timepoint) :
    ((generateMeasurementsForBiomarker bio arm config isR draws).countP
        fun m => decide (m.biomarkerId = b) && decide (m.timepoint = t)) =
      if bio.id = b then 1 else 0 := by
  rw [countP_key_proj, generateMeasurements_keys]
  rcases t <;> by_cases hb : bio.id = b <;>
    simp [hb, List.countP_cons, Prod.ext_iff]

/-- `countP` distributes over `flatMap` as a sum of per-block counts. -/
theorem countP_flatMap {α β : Type} (f : α → List β) (p : β → Bool) :
    ∀ l : List α, ((l.flatMap f).countP p) = (l.map fun a => (f a).countP p).sum
  | [] => rfl
  | a :: l => by
      rw [List.flatMap_cons, List.countP_append, List.map_cons, List.sum_cons,
        countP_flatMap f p l]

/-- Over a duplicate-free list containing `b`, the indicator sum is 1. -/
theorem sum_ite_eq_one (b : String) :
    ∀ l : List String, l.Nodup → b ∈ l →
      ((l.map fun x => if x = b then (1 : ℕ) else 0).sum) = 1 := by
  intro l
  induction l with
  | nil => intro _ h; exact absurd h (List.not_mem_nil b)
  | cons x l ih =>
      intro hnd hmem
      rw [List.map_cons, List.sum_cons]
      rcases List.mem_cons.mp hmem with h | h
      · rw [← h, if_pos rfl]
        have hx : b ∉ l := by rw [h]; exact (List.nodup_cons.mp hnd).1
        have hz : ((l.map fun y => if y = b then (1 : ℕ) else 0).sum) = 0 := by
          apply List.sum_eq_zero
          intro z hz
          rcases List.mem_map.mp hz with ⟨y, hy, hyz⟩
          rw [← hyz, if_neg]
          intro hyb
          exact hx (hyb ▸ hy)
        rw [hz]
      · have hx : x ≠ b := by
          intro hxb
          exact (List.nodup_cons.mp hnd).1 (hxb ▸ h)
        rw [if_neg hx, ih (List.nodup_cons.mp hnd).2 h]

/-- Over a list not containing `b`, the indicator sum is 0. -/
theorem sum_ite_eq_zero (b : String) :
    ∀ l : List String, b ∉ l →
      ((l.map fun x => if x = b then (1 : ℕ) else 0).sum) = 0 := by
  intro l hb
  apply List.sum_eq_zero
  intro z hz
  rcases List.mem_map.mp hz with ⟨y, hy, hyz⟩
  rw [← hyz, if_neg]
  intro hyb
  exact hb (hyb ▸ hy)

/-- A patient's full measurement list counts one hit per biomarker whose
id equals `b`. -/
theorem flatMap_measCountP (biomarkers : List BiomarkerDef) (arm : Arm)
    (config : SimulationConfig) (isR : Bool) (draws : BiomarkerDef → ℕ → ℝ)
    (b : String) (t : Timepoint) :
    ((biomarkers.flatMap fun bio =>
        generateMeasurementsForBiomarker bio arm config isR (draws bio)).countP
          fun m => decide (m.biomarkerId = b) && decide (m.timepoint = t)) =
      ((biomarkers.map fun bio => bio.id).map fun x => if x = b then (1 : ℕ) else 0).sum := by
  rw [countP_flatMap, List.map_map]
  congr 1
  apply List.map_congr_left
  intro bio _
  show ((generateMeasurementsForBiomarker bio arm config isR (draws bio)).countP
      fun m => decide (m.biomarkerId = b) && decide (m.timepoint = t)) =
    if bio.id = b then 1 else 0
  exact generateMeasurements_countP bio arm config isR (draws bio) b t

/-- Every patient of a generated cohort (duplicate-free biomarker ids)
carries exactly one measurement per carried (biomarker, timepoint) pair,
none for foreign ids, and only values on or above the clamp. -/
theorem gen_patient_props (patientCount : ℕ) (biomarkers : List BiomarkerDef)
    (config : SimulationConfig) (respond : ℕ → Bool)
    (draws : ℕ → BiomarkerDef → ℕ → ℝ)
    (hnodup : (biomarkers.map fun bio => bio.id).Nodup) :
    ∀ p ∈ generateSimulatedData patientCount biomarkers config respond draws,
      (∀ (b : String) (t : Timepoint),
        measCount p b t =
          if b ∈ biomarkers.map fun bio => bio.id then 1 else 0) ∧
      ∀ m ∈ p.measurements, 0.01 ≤ m.value := by
  intro p hp
  simp only [generateSimulatedData, List.mem_map, List.mem_range] at hp
  obtain ⟨i, hi, rfl⟩ := hp
  constructor
  · intro b t
    show ((biomarkers.flatMap fun bio =>
        generateMeasurementsForBiomarker bio
          (armsList.getD (i % 3) Arm.PLACEBO) config
          (respond i) (draws i bio)).countP
        fun m => decide (m.biomarkerId = b) && decide (m.timepoint = t)) =
      if b ∈ biomarkers.map fun bio => bio.id then 1 else 0
    rw [flatMap_measCountP]
    by_cases hb : b ∈ biomarkers.map fun bio => bio.id
    · rw [if_pos hb]
      exact sum_ite_eq_one b _ hnodup hb
    · rw [if_neg hb]
      exact sum_ite_eq_zero b _ hb
  · intro m hm
    have hm' : m ∈ biomarkers.flatMap fun bio =>
        generateMeasurementsForBiomarker bio
          (armsList.getD (i % 3) Arm.PLACEBO) config
          (respond i) (draws i bio) := hm
    rcases List.mem_flatMap.mp hm' with ⟨bio, hbio, hmbio⟩
    exact generateMeasurements_values bio _ config (respond i) (draws i bio) m hmbio

end Simulation

/-- C9: the data-model invariant — every patient produced by
`generateSimulatedData` (with duplicate-free biomarker ids), and every
patient after `augmentDataWithBiomarker` with a fresh biomarker id, has
exactly one measurement per carried (biomarker, timepoint) pair over the
four timepoints, and every measurement value is at least the `0.01`
clamp floor. -/
theorem c9_measurement_invariant (patientCount : ℕ)
    (biomarkers : List Simulation.BiomarkerDef) (config : Simulation.SimulationConfig)
    (respond : ℕ → Bool) (draws : ℕ → Simulation.BiomarkerDef → ℕ → ℝ)
    (newBiomarker : Simulation.BiomarkerDef) (respond2 : ℕ → Bool) (draws2 : ℕ → ℕ → ℝ)
    (hnodup : (biomarkers.map fun bio => bio.id).Nodup)
    (hnew : newBiomarker.id ∉ biomarkers.map fun bio => bio.id) :
    (∀ p ∈ Simulation.generateSimulatedData patientCount biomarkers config respond draws,
      (∀ b ∈ biomarkers.map fun bio => bio.id, ∀ t : Simulation.Timepoint,
        Simulation.measCount p b t = 1) ∧
      ∀ m ∈ p.measurements, 0.01 ≤ m.value) ∧
    (∀ q ∈ Simulation.augmentDataWithBiomarker
        (Simulation.generateSimulatedData patientCount biomarkers config respond draws)
        newBiomarker config respond2 draws2,
      (∀ b ∈ newBiomarker.id :: biomarkers.map fun bio => bio.id,
        ∀ t : Simulation.Timepoint, Simulation.measCount q b t = 1) ∧
      ∀ m ∈ q.measurements, 0.01 ≤ m.value) := by
  constructor
  · intro p hp
    obtain ⟨hcount, hval⟩ := Simulation.gen_patient_props patientCount biomarkers
      config respond draws hnodup p hp
    exact ⟨fun b hb t => by rw [hcount b t, if_pos hb], hval⟩
  · intro q hq
    obtain ⟨p, hp, hid, harm, j, hmeas⟩ :=
      Simulation.exists_of_forall2_mem
        (Simulation.augment_forall2
          (Simulation.generateSimulatedData patientCount biomarkers config respond draws)
          newBiomarker config respond2 draws2) q hq
    obtain ⟨hcount, hval⟩ := Simulation.gen_patient_props patientCount biomarkers
      config respond draws hnodup p hp
    constructor
    · intro b hb t
      rw [Simulation.measCount, hmeas, List.countP_append]
      have h1 : (p.measurements.countP
          fun m => decide (m.biomarkerId = b) && decide (m.timepoint = t)) =
          if b ∈ biomarkers.map fun bio => bio.id then 1 else 0 := hcount b t
      have h2 := Simulation.generateMeasurements_countP newBiomarker p.arm config
        (respond2 j) (draws2 j) b t
      rw [h1, h2]
      rcases List.mem_cons.mp hb with hb' | hb'
      · rw [if_neg (by rw [hb']; exact hnew), if_pos hb'.symm]
      · rw [if_pos hb', if_neg]
        intro hc
        rw [hc] at hnew
        exact hnew hb'
    · intro m hm
      have hm' : m ∈ p.measurements ++
          Simulation.generateMeasurementsForBiomarker newBiomarker p.arm config
            (respond2 j) (draws2 j) := hmeas ▸ hm
      rcases List.mem_append.mp hm' with h | h
      · exact hval m h
      · exact Simulation.generateMeasurements_values newBiomarker p.arm config
          (respond2 j) (draws2 j) m h

/-- Witness for C9: the invariant at a concrete two-patient, two-biomarker
scenario. -/
theorem c9_measurement_invariant_witness :
    (∀ p ∈ Simulation.generateSimulatedData 2 [Simulation.sampleBiomarker]
        Simulation.sampleConfig (fun _ => true) (fun _ _ _ => 0),
      (∀ b ∈ [Simulation.sampleBiomarker].map fun bio => bio.id,
        ∀ t : Simulation.Timepoint, Simulation.measCount p b t = 1) ∧
      ∀ m ∈ p.measurements, 0.01 ≤ m.value) ∧
    (∀ q ∈ Simulation.augmentDataWithBiomarker
        (Simulation.generateSimulatedData 2 [Simulation.sampleBiomarker]
          Simulation.sampleConfig (fun _ => true) (fun _ _ _ => 0))
        Simulation.sampleBiomarker2 Simulation.sampleConfig (fun _ => false)
        (fun _ _ => 0),
      (∀ b ∈ Simulation.sampleBiomarker2.id ::
          [Simulation.sampleBiomarker].map fun bio => bio.id,
        ∀ t : Simulation.Timepoint, Simulation.measCount q b t = 1) ∧
      ∀ m ∈ q.measurements, 0.01 ≤ m.value) :=
  c9_measurement_invariant 2 [Simulation.sampleBiomarker] Simulation.sampleConfig
    (fun _ => true) (fun _ _ _ => 0) Simulation.sampleBiomarker2 (fun _ => false)
    (fun _ _ => 0) (by decide) (by decide)

/-- C10: `calculateDerivedMetrics` guards against a missing or zero
baseline — the derived change fields then default to `0` instead of a
division by zero — and a measurement that already carries a
`changeFromBaseline` or `percentChange` keeps its original value.  Every
output measurement is the enrichment of an input measurement of the same
patient against its group's Baseline value. -/
theorem c10_derived_metrics_zero_guard (patients : List Simulation.PatientData) :
    (∀ (bv : Option ℝ) (m : Simulation.Measurement), bv = none ∨ bv = some 0 →
        (App.enrichMeasurement bv m).changeFromBaseline =
          some (m.changeFromBaseline.getD 0) ∧
        (App.enrichMeasurement bv m).percentChange =
          some (m.percentChange.getD 0)) ∧
    (∀ (bv : Option ℝ) (m : Simulation.Measurement) (c : ℝ),
        (m.changeFromBaseline = some c →
          (App.enrichMeasurement bv m).changeFromBaseline = some c) ∧
        (m.percentChange = some c →
          (App.enrichMeasurement bv m).percentChange = some c)) ∧
    (∀ q ∈ App.calculateDerivedMetrics patients, ∀ mm ∈ q.measurements,
        ∃ p ∈ patients, ∃ m ∈ p.measurements, ∃ bv : Option ℝ,
          mm = App.enrichMeasurement bv m ∧
          bv = ((p.measurements.filter fun x =>
                decide (x.biomarkerId = m.biomarkerId)).find?
              fun x => decide (x.timepoint = Simulation.Timepoint.BASELINE)).map
            fun x => x.value) := by
  refine ⟨?_, ?_, ?_⟩
  · rintro bv m (rfl | rfl)
    · exact ⟨rfl, rfl⟩
    · constructor
      · show some (m.changeFromBaseline.getD (if (0 : ℝ) ≠ 0 then m.value - 0 else 0)) = _
        norm_num
      · show some (m.percentChange.getD
          (if (0 : ℝ) ≠ 0 then (m.value - 0) / 0 * 100 else 0)) = _
        norm_num
  · intro bv m c
    constructor
    · intro h
      show some (m.changeFromBaseline.getD _) = some c
      rw [h]
      rfl
    · intro h
      show some (m.percentChange.getD _) = some c
      rw [h]
      rfl
  · intro q hq mm hmm
    simp only [App.calculateDerivedMetrics, List.mem_map] at hq
    obtain ⟨p, hp, rfl⟩ := hq
    have hmm' : mm ∈ (App.keyOrder (p.measurements.map fun m => m.biomarkerId)).flatMap
        fun bioId =>
          (p.measurements.filter fun m => decide (m.biomarkerId = bioId)).map
            (App.enrichMeasurement
              (((p.measurements.filter fun m => decide (m.biomarkerId = bioId)).find?
                  fun m => decide (m.timepoint = Simulation.Timepoint.BASELINE)).map
                fun m => m.value)) := hmm
    rcases List.mem_flatMap.mp hmm' with ⟨bioId, hkey, hmem2⟩
    rcases List.mem_map.mp hmem2 with ⟨m, hmfilter, hEq⟩
    have hmemp : m ∈ p.measurements := List.mem_of_mem_filter hmfilter
    have hbid : m.biomarkerId = bioId := by
      have := List.of_mem_filter hmfilter
      simpa using this
    refine ⟨p, hp, m, hmemp, _, hEq.symm, ?_⟩
    rw [hbid]

end
